import Mathlib

/-!
Verification of the address-space node-management core of the open62541 OPC UA
server (`src/server/ua_services_nodemanagement.c`).

The C code is shallowly embedded: nodes are a flat structure covering the
fields of the tagged union of node classes, the NodeStore is an association
list keyed by the node's own `nodeId` field, and the stateful service
functions become explicit state-passing functions over a `UA_Server` record.
Helpers that live outside the translated file (the NodeStore primitives,
`UA_Server_editNode`, `isNodeInTree`, `getTypeHierarchy`, `getNodeType`,
single-hop Browse) are modelled from the specification and marked as such in
their doc comments.  Recursive instantiation is made total with an explicit
fuel argument; running out of fuel reports an error status, mirroring the
only way the C recursion can stop early (allocation failure).
-/

set_option maxRecDepth 8192
set_option maxHeartbeats 2000000

namespace NodeMgmt

/-! ## Status codes (values from the OPC UA status-code space) -/

abbrev UA_StatusCode := Nat

def UA_STATUSCODE_GOOD : UA_StatusCode := 0
def UA_STATUSCODE_BADINTERNALERROR : UA_StatusCode := 0x80020000
def UA_STATUSCODE_BADOUTOFMEMORY : UA_StatusCode := 0x80030000
def UA_STATUSCODE_BADNOTHINGTODO : UA_StatusCode := 0x800F0000
def UA_STATUSCODE_BADNODEIDINVALID : UA_StatusCode := 0x80330000
def UA_STATUSCODE_BADNODEIDUNKNOWN : UA_StatusCode := 0x80340000
def UA_STATUSCODE_BADNODEIDEXISTS : UA_StatusCode := 0x805E0000
def UA_STATUSCODE_BADNODECLASSINVALID : UA_StatusCode := 0x805F0000
def UA_STATUSCODE_BADNODEATTRIBUTESINVALID : UA_StatusCode := 0x80620000
def UA_STATUSCODE_BADPARENTNODEIDINVALID : UA_StatusCode := 0x805B0000
def UA_STATUSCODE_BADREFERENCENOTALLOWED : UA_StatusCode := 0x805C0000
def UA_STATUSCODE_BADREFERENCETYPEIDINVALID : UA_StatusCode := 0x80410000
def UA_STATUSCODE_BADTYPEDEFINITIONINVALID : UA_StatusCode := 0x80630000
def UA_STATUSCODE_BADTYPEMISMATCH : UA_StatusCode := 0x80740000
def UA_STATUSCODE_BADNOTIMPLEMENTED : UA_StatusCode := 0x80400000
def UA_STATUSCODE_UNCERTAINREFERENCENOTDELETED : UA_StatusCode := 0x40BC0000

/-! ## NodeIds and related basic types -/

/-- Identifier part of a NodeId: numeric, string, guid or opaque bytes. -/
inductive UA_NodeIdIdentifier where
  | numeric (n : Nat)
  | text (s : String)
  | guid (g : String)
  | byteString (b : String)
deriving DecidableEq

structure UA_NodeId where
  namespaceIndex : Nat
  identifier : UA_NodeIdIdentifier
deriving DecidableEq

/-- The null NodeId (namespace 0, numeric 0). -/
def nullNodeId : UA_NodeId := ⟨0, .numeric 0⟩

def UA_NodeId_isNull (id : UA_NodeId) : Bool := decide (id = nullNodeId)

/-- ExpandedNodeId: NodeId plus namespace URI and server index (0 = local). -/
structure UA_ExpandedNodeId where
  nodeId : UA_NodeId
  namespaceUri : String
  serverIndex : Nat
deriving DecidableEq

structure UA_QualifiedName where
  namespaceIndex : Nat
  name : String
deriving DecidableEq

/-- A one-way reference stored on a node.  `isInverse` means the logical
arrow points into this node. -/
structure UA_ReferenceNode where
  referenceTypeId : UA_NodeId
  targetId : UA_ExpandedNodeId
  isInverse : Bool
deriving DecidableEq

inductive UA_NodeClass where
  | UNSPECIFIED
  | OBJECT
  | VARIABLE
  | METHOD
  | OBJECTTYPE
  | VARIABLETYPE
  | REFERENCETYPE
  | DATATYPE
  | VIEW
deriving DecidableEq

inductive UA_ValueSource where
  | DATA
  | DATASOURCE
deriving DecidableEq

/-- Opaque stand-in for a variable's data value (the variant payload is not
needed by any claim; `payload` only records what was stored). -/
structure UA_DataValueRepr where
  hasValue : Bool := false
  payload : Nat := 0
deriving DecidableEq

/-- Lifecycle pair of an ObjectType.  The C constructor/destructor function
pointers are modelled as opaque numeric identifiers; invoking the constructor
for a node yields its identifier as the instance handle, and invoking the
destructor is recorded as an event. -/
structure UA_ObjectLifecycleManagement where
  constructorId : Option Nat := none
  destructorId : Option Nat := none
deriving DecidableEq

/-- A value callback / data source / method callback is an opaque function
pointer in C; modelled as a numeric identifier. -/
abbrev UA_ValueCallback := Nat
abbrev UA_DataSource := Nat
abbrev UA_MethodCallback := Option Nat

/-- A node of the address space.  The C tagged union over the eight node
classes is flattened: all class-specific fields are present and the
`nodeClass` tag says which are meaningful, exactly as the C code reads them
after a cast. -/
structure UA_Node where
  nodeId : UA_NodeId
  nodeClass : UA_NodeClass
  browseName : UA_QualifiedName
  displayName : String
  description : String
  writeMask : Nat
  userWriteMask : Nat
  references : List UA_ReferenceNode
  isAbstract : Bool
  symmetric : Bool
  dataType : UA_NodeId
  valueRank : Int
  arrayDimensions : List Nat
  valueSource : UA_ValueSource
  value : UA_DataValueRepr
  valueCallback : UA_ValueCallback
  dataSource : UA_DataSource
  accessLevel : Nat
  userAccessLevel : Nat
  minimumSamplingInterval : Nat
  historizing : Bool
  eventNotifier : Nat
  instanceHandle : Nat
  lifecycleManagement : UA_ObjectLifecycleManagement
  executable : Bool
  attachedMethod : UA_MethodCallback
  methodHandle : Nat
  containsNoLoops : Bool
deriving DecidableEq

/-- Zero-initialized node of a given class (`UA_NodeStore_newNode`). -/
def UA_NodeStore_newNode (c : UA_NodeClass) : UA_Node :=
  { nodeId := nullNodeId, nodeClass := c, browseName := ⟨0, ""⟩,
    displayName := "", description := "", writeMask := 0, userWriteMask := 0,
    references := [], isAbstract := false, symmetric := false,
    dataType := nullNodeId, valueRank := 0, arrayDimensions := [],
    valueSource := .DATA, value := {}, valueCallback := 0, dataSource := 0,
    accessLevel := 0, userAccessLevel := 0, minimumSamplingInterval := 0,
    historizing := false, eventNotifier := 0, instanceHandle := 0,
    lifecycleManagement := {}, executable := false, attachedMethod := none,
    methodHandle := 0, containsNoLoops := false }

/-- A node with its reference list replaced; `n.withRefs []` is the
"attributes only" view used to state that an operation does not overwrite
a node (it may only touch its edges). -/
def UA_Node.withRefs (n : UA_Node) (rs : List UA_ReferenceNode) : UA_Node :=
  { n with references := rs }

/-! ## Well-known NodeIds of namespace 0 -/

def hasSubtypeId : UA_NodeId := ⟨0, .numeric 45⟩
def hierarchicalReferencesId : UA_NodeId := ⟨0, .numeric 33⟩
def aggregatesId : UA_NodeId := ⟨0, .numeric 44⟩
def hasTypeDefinitionId : UA_NodeId := ⟨0, .numeric 40⟩
def hasPropertyId : UA_NodeId := ⟨0, .numeric 46⟩
def propertyTypeId : UA_NodeId := ⟨0, .numeric 68⟩
def baseDataTypeId : UA_NodeId := ⟨0, .numeric 24⟩
def baseDataVariableTypeId : UA_NodeId := ⟨0, .numeric 63⟩
def baseObjectTypeId : UA_NodeId := ⟨0, .numeric 58⟩
def serverGetMonitoredItemsId : UA_NodeId := ⟨0, .numeric 11492⟩
def serverGetMonitoredItemsInputArgumentsId : UA_NodeId := ⟨0, .numeric 11493⟩
def serverGetMonitoredItemsOutputArgumentsId : UA_NodeId := ⟨0, .numeric 11494⟩

/-! ## NodeStore

Modelled from the spec (§4.A): the NodeStore maps `NodeId → Node`; the store
itself is outside the translated file, so its operations follow the spec's
description (insert with fresh-id allocation, get, remove, edit). -/

/-- Modelled from the spec: `get(id) → &Node?` — immutable lookup. -/
def UA_NodeStore_get : List UA_Node → UA_NodeId → Option UA_Node
  | [], _ => none
  | n :: rest, id => if n.nodeId = id then some n else UA_NodeStore_get rest id

/-- Replace the node stored under `id` (the slot of a keyed map). -/
def replaceNode : List UA_Node → UA_NodeId → UA_Node → List UA_Node
  | [], _, _ => []
  | n :: rest, id, n' => (if n.nodeId = id then n' else n) :: replaceNode rest id n'

/-- Remove the slot of `id` from the keyed map. -/
def removeNode : List UA_Node → UA_NodeId → List UA_Node
  | [], _ => []
  | n :: rest, id =>
    if n.nodeId = id then removeNode rest id else n :: removeNode rest id

/-- Largest numeric identifier appearing in the store, used to allocate
fresh ids. -/
def maxNumericId (ns : List UA_Node) : Nat :=
  ns.foldr (fun n acc =>
    match n.nodeId.identifier with
    | .numeric k => max k acc
    | _ => acc) 0

/-- Modelled from the spec: the store "allocates identifiers when
requested-id is null" — a fresh numeric id in the given namespace. -/
def freshNumericId (ns : List UA_Node) (nsIndex : Nat) : UA_NodeId :=
  ⟨nsIndex, .numeric (maxNumericId ns + 1)⟩

/-- A requested id with numeric identifier 0 asks the store to assign one
(the instantiation code resets a clone's id to numeric 0 and only sets the
namespace index, commenting that a fresh id will be assigned). -/
def needsFreshId (id : UA_NodeId) : Bool := decide (id.identifier = .numeric 0)

/-- Modelled from the spec: `insert(node) → status` — if `node.id` is null,
allocate a fresh numeric id in the same namespace; fail with IdExists if
occupied; otherwise store the node.  Returns the new store, the status and
the id under which the node was stored. -/
def UA_NodeStore_insert (ns : List UA_Node) (node : UA_Node) :
    List UA_Node × UA_StatusCode × UA_NodeId :=
  let node :=
    if needsFreshId node.nodeId then
      { node with nodeId := freshNumericId ns node.nodeId.namespaceIndex }
    else node
  match UA_NodeStore_get ns node.nodeId with
  | some _ => (ns, UA_STATUSCODE_BADNODEIDEXISTS, nullNodeId)
  | none => (ns ++ [node], UA_STATUSCODE_GOOD, node.nodeId)

/-- Modelled from the spec: `remove(id) → status`. -/
def UA_NodeStore_remove (ns : List UA_Node) (id : UA_NodeId) :
    List UA_Node × UA_StatusCode :=
  match UA_NodeStore_get ns id with
  | none => (ns, UA_STATUSCODE_BADNODEIDUNKNOWN)
  | some _ => (removeNode ns id, UA_STATUSCODE_GOOD)

/-- Modelled from the spec: `getCopy(id) → Node?` — deep clone (value
semantics make this a plain lookup here). -/
def UA_NodeStore_getCopy (ns : List UA_Node) (id : UA_NodeId) : Option UA_Node :=
  UA_NodeStore_get ns id

/-! ## Server state -/

/-- Observable calls into user-supplied callbacks, recorded in order. -/
inductive UA_Event where
  | destructorCall (destructorId : Nat) (nodeId : UA_NodeId) (instanceHandle : Nat)
  | instantiationCall (callbackId : Nat) (nodeId : UA_NodeId) (typeId : UA_NodeId)
deriving DecidableEq

structure UA_Server where
  nodestore : List UA_Node
  namespacesSize : Nat
  events : List UA_Event
deriving DecidableEq

/-- Modelled from the spec (§4.A): `edit(id, f)` obtains a mutable borrow of
the node and invokes the callback; the callback's return code is propagated
and its mutation of the node persists regardless of the status.  A missing
node yields BadNodeIdUnknown. -/
def UA_Server_editNode (s : UA_Server) (id : UA_NodeId)
    (f : UA_Node → UA_Node × UA_StatusCode) : UA_Server × UA_StatusCode :=
  match UA_NodeStore_get s.nodestore id with
  | none => (s, UA_STATUSCODE_BADNODEIDUNKNOWN)
  | some n =>
    let r := f n
    ({ s with nodestore := replaceNode s.nodestore id r.1 }, r.2)

/-! ## Type-hierarchy helpers (outside the translated file) -/

/-- One step of `isNodeInTree`: does this reference climb towards a
supertype via one of the given reference types? -/
def relevantInverseRef (refTypeIds : List UA_NodeId) (r : UA_ReferenceNode) : Bool :=
  r.isInverse && decide (r.referenceTypeId ∈ refTypeIds)

/-- Modelled from the spec (§4.D): search from `leaf` against the transitive
closure of the reference types in `refTypeIds`, in the inverse direction,
returning true iff `nodeToFind` is reached (the node itself counts — the
subtype relation is non-strict).  Fuel bounds the depth; the graph is
expected acyclic. -/
def isNodeInTreeWithFuel (ns : List UA_Node) (refTypeIds : List UA_NodeId)
    (nodeToFind : UA_NodeId) : Nat → UA_NodeId → Bool
  | 0, _ => false
  | fuel+1, leaf =>
    if leaf = nodeToFind then true
    else
      match UA_NodeStore_get ns leaf with
      | none => false
      | some node =>
        node.references.any (fun r =>
          relevantInverseRef refTypeIds r &&
          isNodeInTreeWithFuel ns refTypeIds nodeToFind fuel r.targetId.nodeId)

/-- Modelled from the spec (§4.D): `isNodeInTree(start, root, via[])`. -/
def isNodeInTree (ns : List UA_Node) (leaf nodeToFind : UA_NodeId)
    (refTypeIds : List UA_NodeId) : Bool :=
  isNodeInTreeWithFuel ns refTypeIds nodeToFind (ns.length + 1) leaf

/-- Supertype targets of a node: inverse hasSubtype edges. -/
def directSupertypes (ns : List UA_Node) (id : UA_NodeId) : List UA_NodeId :=
  match UA_NodeStore_get ns id with
  | none => []
  | some n =>
    n.references.filterMap (fun r =>
      if r.isInverse && decide (r.referenceTypeId = hasSubtypeId) then
        some r.targetId.nodeId
      else none)

def getTypeHierarchyGo (ns : List UA_Node) :
    Nat → List UA_NodeId → List UA_NodeId → List UA_NodeId
  | 0, _, acc => acc.reverse
  | _+1, [], acc => acc.reverse
  | fuel+1, id :: rest, acc =>
    if id ∈ acc then getTypeHierarchyGo ns fuel rest acc
    else getTypeHierarchyGo ns fuel (rest ++ directSupertypes ns id) (id :: acc)

/-- Modelled from the spec (§4.D): `typeHierarchy(typeNode, includeSelf)` —
the supertype chain via inverse hasSubtype, most-specific first, including
the node itself (the instantiator always passes `includeSelf = true`). -/
def getTypeHierarchy (ns : List UA_Node) (typeId : UA_NodeId) : List UA_NodeId :=
  getTypeHierarchyGo ns ((ns.length + 1) * (ns.length + 1)) [typeId] []

/-! ## Single-hop Browse (outside the translated file) -/

inductive UA_BrowseDirection where
  | FORWARD
  | INVERSE
  | BOTH
deriving DecidableEq

structure UA_ReferenceDescription where
  referenceTypeId : UA_NodeId
  nodeId : UA_ExpandedNodeId
  browseName : UA_QualifiedName
  nodeClass : UA_NodeClass
deriving DecidableEq

/-- Modelled from the spec: `Service_Browse_single` restricted to what the
node-management code uses — enumerate the direct references of one node that
match a direction, a reference type (with subtypes via the hasSubtype
closure when requested) and a node-class mask, reporting the target's
browse name and class.  References whose target does not resolve locally are
skipped (their class cannot be checked against the mask). -/
def browseNodeReferences (ns : List UA_Node) (startId refTypeId : UA_NodeId)
    (includeSubtypes : Bool) (dir : UA_BrowseDirection)
    (classMask : List UA_NodeClass) :
    UA_StatusCode × List UA_ReferenceDescription :=
  match UA_NodeStore_get ns startId with
  | none => (UA_STATUSCODE_BADNODEIDUNKNOWN, [])
  | some node =>
    (UA_STATUSCODE_GOOD,
     node.references.filterMap (fun r =>
       let dirOk :=
         match dir with
         | .FORWARD => !r.isInverse
         | .INVERSE => r.isInverse
         | .BOTH => true
       let typeOk :=
         if includeSubtypes then isNodeInTree ns r.referenceTypeId refTypeId [hasSubtypeId]
         else decide (r.referenceTypeId = refTypeId)
       if dirOk && typeOk then
         match UA_NodeStore_get ns r.targetId.nodeId with
         | none => none
         | some t =>
           if t.nodeClass ∈ classMask then
             some ⟨r.referenceTypeId, r.targetId, t.browseName, t.nodeClass⟩
           else none
       else none))

/-! ## Service items -/

structure UA_AddReferencesItem where
  sourceNodeId : UA_NodeId
  referenceTypeId : UA_NodeId
  isForward : Bool
  targetServerUri : String
  targetNodeId : UA_ExpandedNodeId
  targetNodeClass : UA_NodeClass
deriving DecidableEq

structure UA_DeleteReferencesItem where
  sourceNodeId : UA_NodeId
  referenceTypeId : UA_NodeId
  isForward : Bool
  targetNodeId : UA_ExpandedNodeId
  deleteBidirectional : Bool
deriving DecidableEq

/-! ## One-way reference primitives (`addOneWayReference`,
`deleteOneWayReference`) -/

/-- `addOneWayReference`: append the edge
`{item.referenceTypeId, item.targetNodeId, isInverse = !item.isForward}` to
the node's reference list.  (The C grows the backing array with spare
capacity `(i+1)|3`; capacity is invisible in the list model, and allocation
cannot fail here.) -/
def addOneWayReference (item : UA_AddReferencesItem) (node : UA_Node) :
    UA_Node × UA_StatusCode :=
  ({ node with references :=
       node.references ++ [⟨item.referenceTypeId, item.targetNodeId, !item.isForward⟩] },
   UA_STATUSCODE_GOOD)

/-- An edge matches a DeleteReferences item iff target node id and reference
type id are equal and the orientation matches (`item.isForward !=
edge.isInverse`). -/
def refMatchesDeleteItem (item : UA_DeleteReferencesItem) (r : UA_ReferenceNode) : Bool :=
  decide (r.targetId.nodeId = item.targetNodeId.nodeId) &&
  decide (r.referenceTypeId = item.referenceTypeId) &&
  decide (item.isForward ≠ r.isInverse)

/-- The C loop of `deleteOneWayReference` runs `i` from
`referencesSize-1` downwards (breaking on underflow), so it finds the
matching edge with the highest index. -/
def findMatchDown (item : UA_DeleteReferencesItem)
    (refs : List UA_ReferenceNode) : Nat → Option Nat
  | 0 => none
  | i+1 =>
    match refs[i]? with
    | some r => if refMatchesDeleteItem item r then some i else findMatchDown item refs i
    | none => findMatchDown item refs i

/-- `deleteOneWayReference`: scan the reference list from the end for a
matching edge; move the last entry into the removed slot and shrink by one
(the backing array is freed when it becomes empty — automatic in the list
model); return UncertainReferenceNotDeleted and leave the node unchanged
when nothing matches. -/
def deleteOneWayReference (item : UA_DeleteReferencesItem) (node : UA_Node) :
    UA_Node × UA_StatusCode :=
  match findMatchDown item node.references node.references.length with
  | none => (node, UA_STATUSCODE_UNCERTAINREFERENCENOTDELETED)
  | some i =>
    match node.references.getLast? with
    | none => (node, UA_STATUSCODE_UNCERTAINREFERENCENOTDELETED)
    | some lastRef =>
      ({ node with references := (node.references.set i lastRef).dropLast },
       UA_STATUSCODE_GOOD)

/-- The behaviour claimed by the specification for `deleteOneWay`: remove
the FIRST matching edge (lowest index), moving the last entry into the
removed slot.  Stated only to compare against the translation of the source,
which scans from the end. -/
def deleteOneWayReferenceFirstMatch (item : UA_DeleteReferencesItem)
    (node : UA_Node) : UA_Node × UA_StatusCode :=
  match node.references.findIdx? (refMatchesDeleteItem item) with
  | none => (node, UA_STATUSCODE_UNCERTAINREFERENCENOTDELETED)
  | some i =>
    match node.references.getLast? with
    | none => (node, UA_STATUSCODE_UNCERTAINREFERENCENOTDELETED)
    | some lastRef =>
      ({ node with references := (node.references.set i lastRef).dropLast },
       UA_STATUSCODE_GOOD)

/-! ## Consistency checks -/

/-- Node classes that are "type" nodes for the parent-reference rules. -/
def typeNodeClasses : List UA_NodeClass :=
  [.DATATYPE, .VARIABLETYPE, .OBJECTTYPE, .REFERENCETYPE]

/-- `checkParentReference`: the parent must exist, the reference type must
resolve to a non-abstract ReferenceType node, type nodes must hang below a
same-class parent via exactly hasSubtype, and other nodes need a
hierarchical reference type. -/
def checkParentReference (ns : List UA_Node) (nodeClass : UA_NodeClass)
    (parentNodeId referenceTypeId : UA_NodeId) : UA_StatusCode :=
  match UA_NodeStore_get ns parentNodeId with
  | none => UA_STATUSCODE_BADPARENTNODEIDINVALID
  | some parent =>
    match UA_NodeStore_get ns referenceTypeId with
    | none => UA_STATUSCODE_BADREFERENCETYPEIDINVALID
    | some referenceType =>
      if referenceType.nodeClass ≠ UA_NodeClass.REFERENCETYPE then
        UA_STATUSCODE_BADREFERENCETYPEIDINVALID
      else if referenceType.isAbstract then
        UA_STATUSCODE_BADREFERENCENOTALLOWED
      else if nodeClass ∈ typeNodeClasses then
        if referenceTypeId ≠ hasSubtypeId then
          UA_STATUSCODE_BADREFERENCENOTALLOWED
        else if parent.nodeClass ≠ nodeClass then
          UA_STATUSCODE_BADPARENTNODEIDINVALID
        else UA_STATUSCODE_GOOD
      else if !(isNodeInTree ns referenceTypeId hierarchicalReferencesId [hasSubtypeId]) then
        UA_STATUSCODE_BADREFERENCETYPEIDINVALID
      else UA_STATUSCODE_GOOD

/-- The tail of `typeCheckVariableNode` (source lines 114–184: reading the
current value, synthesizing a null value, the valueRank / arrayDimensions
compatibility checks and the value coercion).  Its helpers
(`readValueAttribute`, `compatibleValueRankArrayDimensions`,
`compatibleValueRanks`, `compatibleArrayDimensions`, `typeCheckValue`) are
outside the translated file, so this part is kept abstract: the theorems
quantify over it.  Modelled from the spec: §4.F steps 5–10, which may
rewrite the node's value and, when the value rank was left unset, adopt the
variable type's value rank. -/
abbrev UA_ValueCheck := UA_Node → UA_Node × UA_StatusCode

/-- Sanity conditions every instance of the abstract value-check tail
satisfies: it does not rename or re-class the node (it only touches the
value-shape fields). -/
def UA_ValueCheckOk (vc : UA_ValueCheck) : Prop :=
  ∀ n, ((vc n).1).nodeId = n.nodeId ∧ ((vc n).1).nodeClass = n.nodeClass

/-- `typeCheckVariableNode` up to the dataType/variable-type checks
(source lines 84–112), continuing into the abstract value-check tail.
The callback may mutate the node (the dataType default persists even on a
failing status, as in C where the mutation happened before the return). -/
def typeCheckVariableNode (vc : UA_ValueCheck) (ns : List UA_Node)
    (typeDef : UA_NodeId) (node : UA_Node) : UA_Node × UA_StatusCode :=
  let node :=
    if UA_NodeId_isNull node.dataType then { node with dataType := baseDataTypeId }
    else node
  if node.nodeId = baseDataVariableTypeId then (node, UA_STATUSCODE_GOOD)
  else
    match UA_NodeStore_get ns typeDef with
    | none => (node, UA_STATUSCODE_BADTYPEDEFINITIONINVALID)
    | some vt =>
      if vt.nodeClass ≠ UA_NodeClass.VARIABLETYPE then
        (node, UA_STATUSCODE_BADTYPEDEFINITIONINVALID)
      else if decide (node.nodeClass = UA_NodeClass.VARIABLE) && vt.isAbstract then
        (node, UA_STATUSCODE_BADTYPEDEFINITIONINVALID)
      else if !(isNodeInTree ns node.dataType vt.dataType [hasSubtypeId]) then
        (node, UA_STATUSCODE_BADTYPEMISMATCH)
      else vc node

/-- `typeCheckNode`: dispatch the variable type check through `editNode`;
for a Variable the type parent is the type definition, for a VariableType
it is the parent node; other classes pass trivially. -/
def typeCheckNode (vc : UA_ValueCheck) (s : UA_Server) (nodeId : UA_NodeId)
    (nodeClass : UA_NodeClass) (parentId typeId : UA_NodeId) :
    UA_Server × UA_StatusCode :=
  match nodeClass with
  | .VARIABLE => UA_Server_editNode s nodeId (typeCheckVariableNode vc s.nodestore typeId)
  | .VARIABLETYPE => UA_Server_editNode s nodeId (typeCheckVariableNode vc s.nodestore parentId)
  | _ => (s, UA_STATUSCODE_GOOD)

/-! ## AddReferences -/

/-- `Service_AddReferences_single` (without external namespaces): reject
non-local targets, add the one-way edge on the source, add the flipped edge
on the target, and on failure of the second step delete the first edge
again (ignoring the delete's status) and surface the second step's error. -/
def Service_AddReferences_single (s : UA_Server) (item : UA_AddReferencesItem) :
    UA_Server × UA_StatusCode :=
  if item.targetServerUri.length > 0 then (s, UA_STATUSCODE_BADNOTIMPLEMENTED)
  else
    let r1 := UA_Server_editNode s item.sourceNodeId (addOneWayReference item)
    if r1.2 ≠ UA_STATUSCODE_GOOD then r1
    else
      let secondItem : UA_AddReferencesItem :=
        { sourceNodeId := item.targetNodeId.nodeId
          referenceTypeId := item.referenceTypeId
          isForward := !item.isForward
          targetServerUri := ""
          targetNodeId := ⟨item.sourceNodeId, "", 0⟩
          targetNodeClass := .UNSPECIFIED }
      let r2 := UA_Server_editNode r1.1 secondItem.sourceNodeId
                  (addOneWayReference secondItem)
      if r2.2 ≠ UA_STATUSCODE_GOOD then
        let deleteItem : UA_DeleteReferencesItem :=
          { sourceNodeId := item.sourceNodeId
            referenceTypeId := item.referenceTypeId
            isForward := item.isForward
            targetNodeId := item.targetNodeId
            deleteBidirectional := false }
        let r3 := UA_Server_editNode r2.1 item.sourceNodeId
                    (deleteOneWayReference deleteItem)
        (r3.1, r2.2)
      else r2

/-! ## DeleteNodes -/

/-- The DeleteReferencesItem `Service_DeleteNodes_single` builds for the
peer of an edge: zero-initialized (so the referenceTypeId stays null,
exactly as in C), with the orientation flipped and the peer as source. -/
def flipDeleteItem (selfId : UA_NodeId) (r : UA_ReferenceNode) :
    UA_DeleteReferencesItem :=
  { sourceNodeId := r.targetId.nodeId
    referenceTypeId := nullNodeId
    isForward := r.isInverse
    targetNodeId := ⟨selfId, "", 0⟩
    deleteBidirectional := false }

/-- The destructor invocation (if any) one browse result contributes when
node `nodeId` (with instance handle from `node`) is deleted: the browsed
target must resolve to an ObjectType that carries a destructor. -/
def destructorEventOf (W : List UA_Node) (nodeId : UA_NodeId) (node : UA_Node)
    (rd : UA_ReferenceDescription) : Option UA_Event :=
  match UA_NodeStore_get W rd.nodeId.nodeId with
  | none => none
  | some typenode =>
    if typenode.nodeClass ≠ UA_NodeClass.OBJECTTYPE then none
    else
      match typenode.lifecycleManagement.destructorId with
      | none => none
      | some d => some (.destructorCall d nodeId node.instanceHandle)

/-- One iteration of the destructor loop of `Service_DeleteNodes_single`. -/
def destructorLoopStep (nodeId : UA_NodeId) (node : UA_Node) (acc : UA_Server)
    (rd : UA_ReferenceDescription) : UA_Server :=
  match destructorEventOf acc.nodestore nodeId node rd with
  | none => acc
  | some e => { acc with events := acc.events ++ [e] }

/-- One iteration of the reference-removal loop of
`Service_DeleteNodes_single`: request `deleteOneWay` on the edge's peer. -/
def deleteRefsStepServer (selfId : UA_NodeId) (acc : UA_Server)
    (r : UA_ReferenceNode) : UA_Server :=
  (UA_Server_editNode acc r.targetId.nodeId
    (deleteOneWayReference (flipDeleteItem selfId r))).1

/-- The same iteration viewed on the bare store. -/
def deleteRefsStepStore (selfId : UA_NodeId) (acc : List UA_Node)
    (r : UA_ReferenceNode) : List UA_Node :=
  match UA_NodeStore_get acc r.targetId.nodeId with
  | none => acc
  | some peer =>
    replaceNode acc r.targetId.nodeId
      (deleteOneWayReference (flipDeleteItem selfId r) peer).1

/-- `Service_DeleteNodes_single`: for an Object, browse the inverse
hasSubtype edges restricted to ObjectType targets and invoke each carried
destructor; if `deleteReferences` is set, request `deleteOneWay` on every
edge's peer with the orientation flipped (without consistency checks); then
remove the node.  An unknown node id fails with BadNodeIdUnknown. -/
def Service_DeleteNodes_single (s : UA_Server) (nodeId : UA_NodeId)
    (deleteReferences : Bool) : UA_Server × UA_StatusCode :=
  match UA_NodeStore_get s.nodestore nodeId with
  | none => (s, UA_STATUSCODE_BADNODEIDUNKNOWN)
  | some node =>
    let s :=
      if node.nodeClass = UA_NodeClass.OBJECT then
        ((browseNodeReferences s.nodestore nodeId hasSubtypeId true
            .INVERSE [.OBJECTTYPE]).2).foldl (destructorLoopStep nodeId node) s
      else s
    let s :=
      if deleteReferences then
        node.references.foldl (deleteRefsStepServer node.nodeId) s
      else s
    let r := UA_NodeStore_remove s.nodestore nodeId
    ({ s with nodestore := r.1 }, r.2)

/-- The destructor invocations `Service_DeleteNodes_single` performs for an
Object node, computed directly from the browse result (used to state the
theorem independently of the fold inside the translation). -/
def destructorCallsOf (ns : List UA_Node) (nodeId : UA_NodeId) (node : UA_Node) :
    List UA_Event :=
  ((browseNodeReferences ns nodeId hasSubtypeId true .INVERSE
      [.OBJECTTYPE]).2).filterMap (destructorEventOf ns nodeId node)

/-- The peer-side `deleteOneWay` requests `Service_DeleteNodes_single`
issues for the edges of the deleted node, as one store-to-store function
(used to state the theorem). -/
def deleteNodeRefRequests (ns : List UA_Node) (node : UA_Node) : List UA_Node :=
  node.references.foldl (deleteRefsStepStore node.nodeId) ns

/-! ## Instantiation helpers -/

/-- `setObjectInstanceHandle`: store the constructor's result as the
instance handle when none is set (the constructor function pointer is
modelled by its numeric identifier, which is also the handle it returns). -/
def setObjectInstanceHandle (constructorResult : Nat) (node : UA_Node) :
    UA_Node × UA_StatusCode :=
  if node.nodeClass ≠ UA_NodeClass.OBJECT then
    (node, UA_STATUSCODE_BADNODECLASSINVALID)
  else if node.instanceHandle = 0 then
    ({ node with instanceHandle := constructorResult }, UA_STATUSCODE_GOOD)
  else (node, UA_STATUSCODE_GOOD)

/-- `instanceFindAggregateByBrowsename`: browse the forward Aggregates
children (subtypes included, classes Object/Variable/Method) of
`searchInstance` and return the id of the first child whose browse name
matches. -/
def instanceFindAggregateByBrowsename (ns : List UA_Node)
    (searchInstance : UA_NodeId) (browseName : UA_QualifiedName) :
    UA_StatusCode × Option UA_NodeId :=
  let br := browseNodeReferences ns searchInstance aggregatesId true .FORWARD
              [.OBJECT, .VARIABLE, .METHOD]
  if br.1 ≠ UA_STATUSCODE_GOOD then (br.1, none)
  else
    match br.2.find? (fun rd =>
        decide (rd.browseName.namespaceIndex = browseName.namespaceIndex) &&
        decide (rd.browseName.name = browseName.name)) with
    | some rd => (UA_STATUSCODE_GOOD, some rd.nodeId.nodeId)
    | none => (UA_STATUSCODE_GOOD, none)

/-- Modelled from the spec (§4.G, glossary): `getNodeType` resolves an
instance's type by following its forward HasTypeDefinition reference. -/
def getNodeType (ns : List UA_Node) (node : UA_Node) : Option UA_Node :=
  match node.references.find? (fun r =>
      !r.isInverse && decide (r.referenceTypeId = hasTypeDefinitionId)) with
  | none => none
  | some r => UA_NodeStore_get ns r.targetId.nodeId

/-! ## AddNode orchestrator -/

/-- `UA_Server_addNode_begin`: validate the namespace index, insert into the
NodeStore and hand back the stored id. -/
def UA_Server_addNode_begin (s : UA_Server) (node : UA_Node) :
    UA_Server × UA_StatusCode × UA_NodeId :=
  if node.nodeId.namespaceIndex ≥ s.namespacesSize then
    (s, UA_STATUSCODE_BADNODEIDINVALID, nullNodeId)
  else
    let r := UA_NodeStore_insert s.nodestore node
    if r.2.1 ≠ UA_STATUSCODE_GOOD then (s, r.2.1, nullNodeId)
    else ({ s with nodestore := r.1 }, UA_STATUSCODE_GOOD, r.2.2)

mutual

/-- `UA_Server_addNode`: begin (insert) then finish (validate, type-check,
instantiate, attach the parent reference); finish removes the node again on
failure. -/
def UA_Server_addNode (vc : UA_ValueCheck) :
    Nat → UA_Server → UA_Node → UA_NodeId → UA_NodeId → UA_NodeId →
    Option Nat → UA_Server × UA_StatusCode × UA_NodeId
  | 0, s, _, _, _, _, _ => (s, UA_STATUSCODE_BADOUTOFMEMORY, nullNodeId)
  | fuel+1, s, node, parentNodeId, referenceTypeId, typeDefinition, cb =>
    let rb := UA_Server_addNode_begin s node
    if rb.2.1 ≠ UA_STATUSCODE_GOOD then (rb.1, rb.2.1, nullNodeId)
    else
      let rf := UA_Server_addNode_finish vc fuel rb.1 rb.2.2 node.nodeClass
                  parentNodeId referenceTypeId typeDefinition cb
      (rf.1, rf.2, rb.2.2)

/-- `UA_Server_addNode_finish`: check the parent reference (objects may be
parentless), default the type definition, type-check, instantiate, attach
the inverse parent reference; on any failure delete the node again (with
`deleteReferences = true`) and return the failing step's status. -/
def UA_Server_addNode_finish (vc : UA_ValueCheck) :
    Nat → UA_Server → UA_NodeId → UA_NodeClass → UA_NodeId → UA_NodeId →
    UA_NodeId → Option Nat → UA_Server × UA_StatusCode
  | 0, s, _, _, _, _, _, _ => (s, UA_STATUSCODE_BADOUTOFMEMORY)
  | fuel+1, s, nodeId, nodeClass, parentNodeId, referenceTypeId, typeDefinition, cb =>
    let st0 :=
      if nodeClass ≠ UA_NodeClass.OBJECT ∨ ¬ UA_NodeId_isNull parentNodeId ∨
         ¬ UA_NodeId_isNull referenceTypeId then
        checkParentReference s.nodestore nodeClass parentNodeId referenceTypeId
      else UA_STATUSCODE_GOOD
    if st0 ≠ UA_STATUSCODE_GOOD then
      ((Service_DeleteNodes_single s nodeId true).1, st0)
    else
      let typeDefinition :=
        if UA_NodeId_isNull typeDefinition then
          if nodeClass = UA_NodeClass.VARIABLE then baseDataVariableTypeId
          else if nodeClass = UA_NodeClass.OBJECT then baseObjectTypeId
          else typeDefinition
        else typeDefinition
      let rt := typeCheckNode vc s nodeId nodeClass parentNodeId typeDefinition
      if rt.2 ≠ UA_STATUSCODE_GOOD then
        ((Service_DeleteNodes_single rt.1 nodeId true).1, rt.2)
      else
        let ri := instantiateNode vc fuel rt.1 nodeId nodeClass typeDefinition cb
        if ri.2 ≠ UA_STATUSCODE_GOOD then
          ((Service_DeleteNodes_single ri.1 nodeId true).1, ri.2)
        else
          if ¬ UA_NodeId_isNull parentNodeId then
            let item : UA_AddReferencesItem :=
              { sourceNodeId := nodeId
                referenceTypeId := referenceTypeId
                isForward := false
                targetServerUri := ""
                targetNodeId := ⟨parentNodeId, "", 0⟩
                targetNodeClass := .UNSPECIFIED }
            let ra := Service_AddReferences_single ri.1 item
            if ra.2 ≠ UA_STATUSCODE_GOOD then
              ((Service_DeleteNodes_single ra.1 nodeId true).1, ra.2)
            else (ra.1, UA_STATUSCODE_GOOD)
          else (ri.1, UA_STATUSCODE_GOOD)

/-- `instantiateNode`: only Variables and Objects are instantiated; resolve
the type node (must be a non-abstract type of the matching class), copy the
children of every member of the type hierarchy (accumulating statuses with
bitwise or, as the C loop does), run the object constructor, add the forward
HasTypeDefinition reference and fire the instantiation callback. -/
def instantiateNode (vc : UA_ValueCheck) :
    Nat → UA_Server → UA_NodeId → UA_NodeClass → UA_NodeId → Option Nat →
    UA_Server × UA_StatusCode
  | 0, s, _, _, _, _ => (s, UA_STATUSCODE_BADOUTOFMEMORY)
  | fuel+1, s, nodeId, nodeClass, typeId, cb =>
    if nodeClass ≠ UA_NodeClass.VARIABLE ∧ nodeClass ≠ UA_NodeClass.OBJECT then
      (s, UA_STATUSCODE_GOOD)
    else
      match UA_NodeStore_get s.nodestore typeId with
      | none => (s, UA_STATUSCODE_BADTYPEDEFINITIONINVALID)
      | some typenode =>
        if nodeClass = UA_NodeClass.VARIABLE ∧
           (typenode.nodeClass ≠ UA_NodeClass.VARIABLETYPE ∨ typenode.isAbstract) then
          (s, UA_STATUSCODE_BADTYPEDEFINITIONINVALID)
        else if nodeClass = UA_NodeClass.OBJECT ∧
           (typenode.nodeClass ≠ UA_NodeClass.OBJECTTYPE ∨ typenode.isAbstract) then
          (s, UA_STATUSCODE_BADTYPEDEFINITIONINVALID)
        else
          let hierarchy := getTypeHierarchy s.nodestore typeId
          let rc := copyChildNodesHierarchy vc fuel s hierarchy nodeId cb
                      UA_STATUSCODE_GOOD
          if rc.2 ≠ UA_STATUSCODE_GOOD then rc
          else
            let s1 :=
              if typenode.nodeClass = UA_NodeClass.OBJECTTYPE then
                match typenode.lifecycleManagement.constructorId with
                | some c => (UA_Server_editNode rc.1 nodeId
                               (setObjectInstanceHandle c)).1
                | none => rc.1
              else rc.1
            let addref : UA_AddReferencesItem :=
              { sourceNodeId := nodeId
                referenceTypeId := hasTypeDefinitionId
                isForward := true
                targetServerUri := ""
                targetNodeId := ⟨typeId, "", 0⟩
                targetNodeClass := .UNSPECIFIED }
            let ra := Service_AddReferences_single s1 addref
            if ra.2 = UA_STATUSCODE_GOOD then
              match cb with
              | some c => ({ ra.1 with events :=
                               ra.1.events ++ [.instantiationCall c nodeId typeId] },
                           ra.2)
              | none => ra
            else ra

/-- The `for` loop of `instantiateNode` over the type hierarchy: statuses of
all iterations are or-ed together and the loop never breaks early. -/
def copyChildNodesHierarchy (vc : UA_ValueCheck) :
    Nat → UA_Server → List UA_NodeId → UA_NodeId → Option Nat →
    UA_StatusCode → UA_Server × UA_StatusCode
  | 0, s, _, _, _, acc => (s, Nat.lor acc UA_STATUSCODE_BADOUTOFMEMORY)
  | _+1, s, [], _, _, acc => (s, acc)
  | fuel+1, s, srcId :: rest, nodeId, cb, acc =>
    let rc := copyChildNodes vc fuel s srcId nodeId cb
    copyChildNodesHierarchy vc fuel rc.1 rest nodeId cb (Nat.lor acc rc.2)

/-- `copyChildNodes`: browse the forward Aggregates children (subtypes
included, classes Object/Variable/Method) of the source and copy each to
the destination. -/
def copyChildNodes (vc : UA_ValueCheck) :
    Nat → UA_Server → UA_NodeId → UA_NodeId → Option Nat →
    UA_Server × UA_StatusCode
  | 0, s, _, _, _ => (s, UA_STATUSCODE_BADOUTOFMEMORY)
  | fuel+1, s, sourceNodeId, destinationNodeId, cb =>
    let br := browseNodeReferences s.nodestore sourceNodeId aggregatesId true
                .FORWARD [.OBJECT, .VARIABLE, .METHOD]
    if br.1 ≠ UA_STATUSCODE_GOOD then (s, br.1)
    else copyChildNodesLoop vc fuel s br.2 destinationNodeId cb

/-- The per-child loop of `copyChildNodes`: a child whose browse name is not
yet aggregated under the destination is linked (Method) or deep-cloned and
re-added via the full orchestrator (Object/Variable, with the clone's id
reset to numeric 0 in the destination's namespace); a child that already
exists is recursed into for Objects and Variables and never replaced.  Any
non-good status aborts the loop. -/
def copyChildNodesLoop (vc : UA_ValueCheck) :
    Nat → UA_Server → List UA_ReferenceDescription → UA_NodeId → Option Nat →
    UA_Server × UA_StatusCode
  | 0, s, _, _, _ => (s, UA_STATUSCODE_BADOUTOFMEMORY)
  | _+1, s, [], _, _ => (s, UA_STATUSCODE_GOOD)
  | fuel+1, s, rd :: rest, destinationNodeId, cb =>
    let rf := instanceFindAggregateByBrowsename s.nodestore destinationNodeId
                rd.browseName
    if rf.1 ≠ UA_STATUSCODE_GOOD then (s, rf.1)
    else
      match rf.2 with
      | none =>
        if rd.nodeClass = UA_NodeClass.METHOD then
          let newItem : UA_AddReferencesItem :=
            { sourceNodeId := destinationNodeId
              referenceTypeId := rd.referenceTypeId
              isForward := true
              targetServerUri := ""
              targetNodeId := rd.nodeId
              targetNodeClass := .METHOD }
          let ra := Service_AddReferences_single s newItem
          if ra.2 ≠ UA_STATUSCODE_GOOD then ra
          else copyChildNodesLoop vc fuel ra.1 rest destinationNodeId cb
        else if rd.nodeClass = UA_NodeClass.VARIABLE ∨
                rd.nodeClass = UA_NodeClass.OBJECT then
          match UA_NodeStore_getCopy s.nodestore rd.nodeId.nodeId with
          | none => (s, UA_STATUSCODE_BADNODEIDINVALID)
          | some node0 =>
            let node := { node0 with
              nodeId := ⟨destinationNodeId.namespaceIndex, .numeric 0⟩ }
            let typeId :=
              match getNodeType s.nodestore node with
              | some vt => vt.nodeId
              | none => nullNodeId
            let ran := UA_Server_addNode vc fuel s node destinationNodeId
                         rd.referenceTypeId typeId cb
            if ran.2.1 ≠ UA_STATUSCODE_GOOD then (ran.1, ran.2.1)
            else copyChildNodesLoop vc fuel ran.1 rest destinationNodeId cb
        else copyChildNodesLoop vc fuel s rest destinationNodeId cb
      | some existingChild =>
        let rr :=
          if rd.nodeClass = UA_NodeClass.VARIABLE ∨
             rd.nodeClass = UA_NodeClass.OBJECT then
            copyChildNodes vc fuel s rd.nodeId.nodeId existingChild cb
          else (s, UA_STATUSCODE_GOOD)
        if rr.2 ≠ UA_STATUSCODE_GOOD then rr
        else copyChildNodesLoop vc fuel rr.1 rest destinationNodeId cb

end

/-! ## addMethodNode -/

structure UA_MethodAttributes where
  displayName : String
  description : String
  writeMask : Nat
  userWriteMask : Nat
  executable : Bool
deriving DecidableEq

/-- The Method node `UA_Server_addMethodNode` builds from its arguments. -/
def mkMethodNode (requestedNewNodeId : UA_NodeId) (browseName : UA_QualifiedName)
    (attr : UA_MethodAttributes) (method : UA_MethodCallback) (handle : Nat) :
    UA_Node :=
  { UA_NodeStore_newNode .METHOD with
    nodeId := requestedNewNodeId
    browseName := browseName
    displayName := attr.displayName
    description := attr.description
    writeMask := attr.writeMask
    userWriteMask := attr.userWriteMask
    executable := attr.executable
    attachedMethod := method
    methodHandle := handle }

/-- The InputArguments / OutputArguments Variable node synthesized by
`UA_Server_addMethodNode` (the argument array itself is opaque; only its
size is recorded in the value payload).  The node id is numeric 0 in the
method's namespace, to be assigned by the store, except for the standard
GetMonitoredItems method whose argument nodes get their well-known ids. -/
def mkArgumentsVariableNode (newMethodId : UA_NodeId) (name : String)
    (argsSize : Nat) (isInput : Bool) : UA_Node :=
  { UA_NodeStore_newNode .VARIABLE with
    nodeId :=
      if newMethodId = serverGetMonitoredItemsId then
        if isInput then serverGetMonitoredItemsInputArgumentsId
        else serverGetMonitoredItemsOutputArgumentsId
      else ⟨newMethodId.namespaceIndex, .numeric 0⟩
    browseName := ⟨0, name⟩
    displayName := name
    description := name
    minimumSamplingInterval := if isInput then 10000 else 0
    value := { hasValue := true, payload := argsSize }
    valueRank := 1
    dataType := baseDataTypeId }

/-- `UA_Server_addMethodNode`: add the Method node, then — only when the
corresponding argument array is non-empty — synthesize the InputArguments
and OutputArguments children of type PropertyType under HasProperty; the
child adds' statuses are discarded (the C marks this with a todo). -/
def UA_Server_addMethodNode (vc : UA_ValueCheck) (fuel : Nat) (s : UA_Server)
    (requestedNewNodeId parentNodeId referenceTypeId : UA_NodeId)
    (browseName : UA_QualifiedName) (attr : UA_MethodAttributes)
    (method : UA_MethodCallback) (handle : Nat)
    (inputArgumentsSize outputArgumentsSize : Nat) :
    UA_Server × UA_StatusCode × UA_NodeId :=
  let node := mkMethodNode requestedNewNodeId browseName attr method handle
  let ra := UA_Server_addNode vc fuel s node parentNodeId referenceTypeId
              nullNodeId none
  if ra.2.1 ≠ UA_STATUSCODE_GOOD then (ra.1, ra.2.1, nullNodeId)
  else
    let newMethodId := ra.2.2
    let s1 :=
      if inputArgumentsSize > 0 then
        (UA_Server_addNode vc fuel ra.1
           (mkArgumentsVariableNode newMethodId "InputArguments"
              inputArgumentsSize true)
           newMethodId hasPropertyId propertyTypeId none).1
      else ra.1
    let s2 :=
      if outputArgumentsSize > 0 then
        (UA_Server_addNode vc fuel s1
           (mkArgumentsVariableNode newMethodId "OutputArguments"
              outputArgumentsSize false)
           newMethodId hasPropertyId propertyTypeId none).1
      else s1
    (s2, ra.2.1, newMethodId)

/-- The initial Method-node add performed by `UA_Server_addMethodNode`
(named so the theorems can refer to it). -/
def methodNodeAdd (vc : UA_ValueCheck) (fuel : Nat) (s : UA_Server)
    (reqId parentId refTypeId : UA_NodeId) (bn : UA_QualifiedName)
    (attr : UA_MethodAttributes) (method : UA_MethodCallback) (handle : Nat) :
    UA_Server × UA_StatusCode × UA_NodeId :=
  UA_Server_addNode vc fuel s (mkMethodNode reqId bn attr method handle)
    parentId refTypeId nullNodeId none

/-- The argument-child add performed by `UA_Server_addMethodNode`: the
synthesized Variable is put under the new method by HasProperty with type
PropertyType. -/
def argumentsNodeAdd (vc : UA_ValueCheck) (fuel : Nat) (s : UA_Server)
    (newMethodId : UA_NodeId) (name : String) (size : Nat) (isInput : Bool) :
    UA_Server × UA_StatusCode × UA_NodeId :=
  UA_Server_addNode vc fuel s
    (mkArgumentsVariableNode newMethodId name size isInput)
    newMethodId hasPropertyId propertyTypeId none

/-! ## Node-specific setters -/

/-- `setValueCallback` (the C writes `node->value.data.callback`). -/
def setValueCallback (callback : UA_ValueCallback) (node : UA_Node) :
    UA_Node × UA_StatusCode :=
  if node.nodeClass ≠ UA_NodeClass.VARIABLE then
    (node, UA_STATUSCODE_BADNODECLASSINVALID)
  else ({ node with valueCallback := callback }, UA_STATUSCODE_GOOD)

/-- `setDataSource`: frees the inline value when the node stored one, then
installs the data source and switches the value source. -/
def setDataSource (dataSource : UA_DataSource) (node : UA_Node) :
    UA_Node × UA_StatusCode :=
  if node.nodeClass ≠ UA_NodeClass.VARIABLE then
    (node, UA_STATUSCODE_BADNODECLASSINVALID)
  else
    let node :=
      if node.valueSource = UA_ValueSource.DATA then
        { node with value := {} }
      else node
    ({ node with dataSource := dataSource, valueSource := UA_ValueSource.DATASOURCE },
     UA_STATUSCODE_GOOD)

/-- `setOLM`: install the lifecycle-management pair on an ObjectType. -/
def setOLM (olm : UA_ObjectLifecycleManagement) (node : UA_Node) :
    UA_Node × UA_StatusCode :=
  if node.nodeClass ≠ UA_NodeClass.OBJECTTYPE then
    (node, UA_STATUSCODE_BADNODECLASSINVALID)
  else ({ node with lifecycleManagement := olm }, UA_STATUSCODE_GOOD)

/-- `editMethodCallback`: install the method callback and handle on a
Method node. -/
def editMethodCallback (callback : UA_MethodCallback) (handle : Nat)
    (node : UA_Node) : UA_Node × UA_StatusCode :=
  if node.nodeClass ≠ UA_NodeClass.METHOD then
    (node, UA_STATUSCODE_BADNODECLASSINVALID)
  else ({ node with attachedMethod := callback, methodHandle := handle },
        UA_STATUSCODE_GOOD)

/-! ## Preservation predicates -/

/-- Two nodes agree on everything except (possibly) their reference list. -/
def attrsEq (a b : UA_Node) : Prop := a.withRefs [] = b.withRefs []

/-- Every node of `pre` is still stored under its id in `post`, with all
fields other than the reference list unchanged. -/
def preservesNodes (pre post : List UA_Node) : Prop :=
  ∀ id n, UA_NodeStore_get pre id = some n →
    ∃ n', UA_NodeStore_get post id = some n' ∧ attrsEq n n'

/-- Like `preservesNodes` but allowing arbitrary changes (including
removal) of the node stored under `x`. -/
def preservesNodesExcept (x : UA_NodeId) (pre post : List UA_Node) : Prop :=
  ∀ id n, id ≠ x → UA_NodeStore_get pre id = some n →
    ∃ n', UA_NodeStore_get post id = some n' ∧ attrsEq n n'

/-! ## Concrete fixtures for the instance theorems -/

/-- A fresh zero-initialized node of class `c` with id `id`. -/
def mkNode (c : UA_NodeClass) (id : UA_NodeId) : UA_Node :=
  { UA_NodeStore_newNode c with nodeId := id }

/-- The identity value-check tail (all shape checks pass). -/
def trivialValueCheck : UA_ValueCheck := fun n => (n, UA_STATUSCODE_GOOD)

def cex7edgeA : UA_ReferenceNode :=
  ⟨⟨0, .numeric 47⟩, ⟨⟨0, .numeric 200⟩, "", 0⟩, false⟩

def cex7edgeB : UA_ReferenceNode :=
  ⟨⟨0, .numeric 47⟩, ⟨⟨0, .numeric 200⟩, "", 7⟩, false⟩

/-- A node carrying two edges that both match `cex7item` (they differ only
in the target's server index, which the matching does not inspect). -/
def cex7node : UA_Node :=
  { mkNode .OBJECT ⟨0, .numeric 100⟩ with references := [cex7edgeA, cex7edgeB] }

def cex7item : UA_DeleteReferencesItem :=
  { sourceNodeId := ⟨0, .numeric 100⟩
    referenceTypeId := ⟨0, .numeric 47⟩
    isForward := true
    targetNodeId := ⟨⟨0, .numeric 200⟩, "", 0⟩
    deleteBidirectional := false }

/-- A Variable node used to exercise the setters. -/
def w10node : UA_Node := mkNode .VARIABLE ⟨0, .numeric 300⟩

/-- An ObjectType parent for the parent-reference check. -/
def w3parent : UA_Node := mkNode .OBJECTTYPE ⟨0, .numeric 58⟩

/-- A concrete non-abstract hierarchical reference type (Organizes), a
direct subtype of HierarchicalReferences. -/
def w3organizes : UA_Node :=
  { mkNode .REFERENCETYPE ⟨0, .numeric 35⟩ with
    references := [⟨hasSubtypeId, ⟨hierarchicalReferencesId, "", 0⟩, true⟩] }

def w3store : List UA_Node := [w3parent, w3organizes]

/-- An abstract VariableType, to exercise the abstract-type rejection. -/
def w4vtAbstract : UA_Node :=
  { mkNode .VARIABLETYPE ⟨0, .numeric 70⟩ with
    isAbstract := true, dataType := baseDataTypeId }

/-- A Variable whose declared type is the abstract VariableType. -/
def w4node : UA_Node :=
  { mkNode .VARIABLE ⟨0, .numeric 301⟩ with dataType := baseDataTypeId }

def w4store : List UA_Node := [w4vtAbstract]

def w1src : UA_Node := mkNode .OBJECT ⟨0, .numeric 400⟩

def w1tgt : UA_Node := mkNode .OBJECT ⟨0, .numeric 401⟩

def w1server : UA_Server := ⟨[w1src, w1tgt], 1, []⟩

def w1item : UA_AddReferencesItem :=
  { sourceNodeId := ⟨0, .numeric 400⟩
    referenceTypeId := ⟨0, .numeric 47⟩
    isForward := true
    targetServerUri := ""
    targetNodeId := ⟨⟨0, .numeric 401⟩, "", 0⟩
    targetNodeClass := .UNSPECIFIED }

/-- An ObjectType carrying a destructor (modelled by its identifier 9). -/
def w6type : UA_Node :=
  { mkNode .OBJECTTYPE ⟨0, .numeric 500⟩ with
    lifecycleManagement := ⟨none, some 9⟩ }

/-- An Object instance with instance handle 3 and an inverse hasSubtype
edge to the destructor-carrying type. -/
def w6obj : UA_Node :=
  { mkNode .OBJECT ⟨0, .numeric 501⟩ with
    instanceHandle := 3
    references := [⟨hasSubtypeId, ⟨⟨0, .numeric 500⟩, "", 0⟩, true⟩] }

def w6server : UA_Server := ⟨[w6type, w6obj], 1, []⟩

/-- HasComponent as a concrete subtype of Aggregates, for the
merge-with-existing scenario. -/
def w5hascomp : UA_Node :=
  { mkNode .REFERENCETYPE ⟨0, .numeric 47⟩ with
    references := [⟨hasSubtypeId, ⟨aggregatesId, "", 0⟩, true⟩] }

/-- The type's child "X". -/
def w5tchild : UA_Node :=
  { mkNode .VARIABLE ⟨0, .numeric 601⟩ with browseName := ⟨0, "X"⟩ }

/-- An ObjectType aggregating the child "X" via HasComponent. -/
def w5type : UA_Node :=
  { mkNode .OBJECTTYPE ⟨0, .numeric 600⟩ with
    references := [⟨⟨0, .numeric 47⟩, ⟨⟨0, .numeric 601⟩, "", 0⟩, false⟩] }

/-- A pre-existing child "X" already aggregated under the destination. -/
def w5echild : UA_Node :=
  { mkNode .VARIABLE ⟨0, .numeric 603⟩ with browseName := ⟨0, "X"⟩ }

/-- The destination instance, already carrying its own child "X". -/
def w5dst : UA_Node :=
  { mkNode .OBJECT ⟨0, .numeric 602⟩ with
    references := [⟨⟨0, .numeric 47⟩, ⟨⟨0, .numeric 603⟩, "", 0⟩, false⟩] }

def w5server : UA_Server :=
  ⟨[w5hascomp, w5tchild, w5type, w5echild, w5dst], 1, []⟩

/-- A node already inserted by `begin`, to be rolled back by `finish`. -/
def w2node : UA_Node := mkNode .OBJECT ⟨0, .numeric 700⟩

def w2server : UA_Server := ⟨[w2node], 1, []⟩

/-- BaseObjectType, concrete and childless. -/
def w8bot : UA_Node := mkNode .OBJECTTYPE baseObjectTypeId

def w8obj : UA_Node := mkNode .OBJECT ⟨0, .numeric 800⟩

def w8server : UA_Server := ⟨[w8bot, w8obj], 1, []⟩

def w9parent : UA_Node := mkNode .OBJECT ⟨0, .numeric 1⟩

/-- HasComponent as a hierarchical reference type for the method itself. -/
def w9reftype : UA_Node :=
  { mkNode .REFERENCETYPE ⟨0, .numeric 47⟩ with
    references := [⟨hasSubtypeId, ⟨hierarchicalReferencesId, "", 0⟩, true⟩] }

/-- HasProperty as a hierarchical reference type for the argument nodes. -/
def w9hasprop : UA_Node :=
  { mkNode .REFERENCETYPE hasPropertyId with
    references := [⟨hasSubtypeId, ⟨hierarchicalReferencesId, "", 0⟩, true⟩] }

/-- PropertyType with dataType BaseDataType. -/
def w9proptype : UA_Node :=
  { mkNode .VARIABLETYPE propertyTypeId with dataType := baseDataTypeId }

def w9server : UA_Server :=
  ⟨[w9parent, w9reftype, w9hasprop, w9proptype], 1, []⟩

def w9attr : UA_MethodAttributes := ⟨"M", "M", 0, 0, true⟩

/-- The flipped second item `Service_AddReferences_single` builds for the
target side (isForward negated, endpoints swapped). -/
def flippedItem (item : UA_AddReferencesItem) : UA_AddReferencesItem :=
  { sourceNodeId := item.targetNodeId.nodeId
    referenceTypeId := item.referenceTypeId
    isForward := !item.isForward
    targetServerUri := ""
    targetNodeId := ⟨item.sourceNodeId, "", 0⟩
    targetNodeClass := .UNSPECIFIED }

/-! ## Basic NodeStore lemmas -/

theorem UA_NodeStore_get_nodeId {ns : List UA_Node} {id : UA_NodeId} {n : UA_Node}
    (h : UA_NodeStore_get ns id = some n) : n.nodeId = id := by
  induction ns with
  | nil => simp [UA_NodeStore_get] at h
  | cons m rest ih =>
    simp only [UA_NodeStore_get] at h
    split at h
    · cases h; assumption
    · exact ih h

theorem get_replaceNode_self {ns : List UA_Node} {id : UA_NodeId} {n n' : UA_Node}
    (hid : n'.nodeId = id) (h : UA_NodeStore_get ns id = some n) :
    UA_NodeStore_get (replaceNode ns id n') id = some n' := by
  induction ns with
  | nil => simp [UA_NodeStore_get] at h
  | cons m rest ih =>
    by_cases hm : m.nodeId = id
    · simp [replaceNode, UA_NodeStore_get, hm, hid]
    · simp only [replaceNode, if_neg hm, UA_NodeStore_get] at h ⊢
      exact ih h

theorem get_replaceNode_ne {ns : List UA_Node} {id id' : UA_NodeId} {n' : UA_Node}
    (hid : n'.nodeId = id) (hne : id' ≠ id) :
    UA_NodeStore_get (replaceNode ns id n') id' = UA_NodeStore_get ns id' := by
  induction ns with
  | nil => rfl
  | cons m rest ih =>
    by_cases hm : m.nodeId = id
    · simp only [replaceNode, if_pos hm, UA_NodeStore_get]
      rw [if_neg (by rw [hid]; exact fun hc => hne hc.symm),
          if_neg (by rw [hm]; exact fun hc => hne hc.symm)]
      exact ih
    · simp only [replaceNode, if_neg hm, UA_NodeStore_get]
      split
      · rfl
      · exact ih

theorem get_removeNode_self {ns : List UA_Node} {id : UA_NodeId} :
    UA_NodeStore_get (removeNode ns id) id = none := by
  induction ns with
  | nil => rfl
  | cons m rest ih =>
    simp only [removeNode]
    by_cases hm : m.nodeId = id
    · rw [if_pos hm]; exact ih
    · rw [if_neg hm]
      simp only [UA_NodeStore_get]
      rw [if_neg hm]
      exact ih

theorem get_removeNode_ne {ns : List UA_Node} {id id' : UA_NodeId}
    (hne : id' ≠ id) :
    UA_NodeStore_get (removeNode ns id) id' = UA_NodeStore_get ns id' := by
  induction ns with
  | nil => rfl
  | cons m rest ih =>
    simp only [removeNode, UA_NodeStore_get]
    by_cases hm : m.nodeId = id
    · rw [if_pos hm, if_neg (by rw [hm]; exact fun hc => hne hc.symm)]
      exact ih
    · rw [if_neg hm]
      simp only [UA_NodeStore_get]
      split
      · rfl
      · exact ih

theorem get_append_some {ns : List UA_Node} {id : UA_NodeId} {n m : UA_Node}
    (h : UA_NodeStore_get ns id = some n) :
    UA_NodeStore_get (ns ++ [m]) id = some n := by
  induction ns with
  | nil => simp [UA_NodeStore_get] at h
  | cons k rest ih =>
    simp only [UA_NodeStore_get, List.cons_append] at h ⊢
    split at h
    · simp [*]
    · rw [if_neg (by assumption)]
      exact ih h

theorem get_append_none {ns : List UA_Node} {id : UA_NodeId} {m : UA_Node}
    (h : UA_NodeStore_get ns id = none) :
    UA_NodeStore_get (ns ++ [m]) id =
      if m.nodeId = id then some m else none := by
  induction ns with
  | nil => rfl
  | cons k rest ih =>
    simp only [UA_NodeStore_get, List.cons_append] at h ⊢
    split at h
    · cases h
    · rw [if_neg (by assumption)]
      exact ih h

theorem UA_Server_editNode_of_none {s : UA_Server} {id : UA_NodeId}
    {f : UA_Node → UA_Node × UA_StatusCode}
    (h : UA_NodeStore_get s.nodestore id = none) :
    UA_Server_editNode s id f = (s, UA_STATUSCODE_BADNODEIDUNKNOWN) := by
  simp [UA_Server_editNode, h]

theorem UA_Server_editNode_of_some {s : UA_Server} {id : UA_NodeId} {n : UA_Node}
    {f : UA_Node → UA_Node × UA_StatusCode}
    (h : UA_NodeStore_get s.nodestore id = some n) :
    UA_Server_editNode s id f =
      ({ s with nodestore := replaceNode s.nodestore id (f n).1 }, (f n).2) := by
  simp [UA_Server_editNode, h]

/-! ## `findMatchDown` characterization (claim C7) -/

theorem findMatchDown_eq_none {item : UA_DeleteReferencesItem}
    {refs : List UA_ReferenceNode}
    (h : ∀ r ∈ refs, refMatchesDeleteItem item r = false) :
    ∀ k, findMatchDown item refs k = none := by
  intro k
  induction k with
  | zero => rfl
  | succ i ih =>
    simp only [findMatchDown]
    cases hr : refs[i]? with
    | none => exact ih
    | some r =>
      simp only [h r (List.getElem?_mem hr), Bool.false_eq_true, if_false]
      exact ih

theorem findMatchDown_eq_some {item : UA_DeleteReferencesItem}
    {refs : List UA_ReferenceNode} {i : Nat} {r : UA_ReferenceNode}
    (hi : refs[i]? = some r) (hm : refMatchesDeleteItem item r = true)
    (hmax : ∀ j s, i < j → refs[j]? = some s → refMatchesDeleteItem item s = false) :
    ∀ k, k ≤ refs.length → i < k → findMatchDown item refs k = some i := by
  intro k
  induction k with
  | zero => intro _ hik; cases hik
  | succ m ih =>
    intro hk hik
    simp only [findMatchDown]
    rcases Nat.lt_or_ge i m with hlt | hge
    · have hmlen : m < refs.length := Nat.lt_of_lt_of_le (Nat.lt_succ_self m) hk
      cases hrm : refs[m]? with
      | none =>
        exact absurd hrm (by simp [List.getElem?_eq_getElem hmlen])
      | some sm =>
        simp only [hmax m sm hlt hrm, Bool.false_eq_true, if_false]
        exact ih (Nat.le_of_succ_le hk) hlt
    · have him : i = m := Nat.le_antisymm (Nat.lt_succ_iff.mp hik) hge
      subst him
      simp only [hi, hm, if_true]

/-- Claim C7 (amended): for every node and DeleteReferences item,
`deleteOneWayReference` removes exactly the LAST (highest-index) edge of the
node's reference list that matches the item's target node id, reference type
id and orientation (an edge matches in orientation iff
`item.isForward != edge.isInverse`), moving the list's last entry into the
removed slot (the backing array disappears when the last edge is removed);
when no edge matches, the node is left unchanged and
UncertainReferenceNotDeleted is returned. -/
theorem deleteOneWayReference_removes_last_match
    (item : UA_DeleteReferencesItem) (node : UA_Node) :
    ((∀ r ∈ node.references, refMatchesDeleteItem item r = false) →
      deleteOneWayReference item node =
        (node, UA_STATUSCODE_UNCERTAINREFERENCENOTDELETED)) ∧
    (∀ i r lastRef, node.references[i]? = some r →
      refMatchesDeleteItem item r = true →
      (∀ j s, i < j → node.references[j]? = some s →
        refMatchesDeleteItem item s = false) →
      node.references.getLast? = some lastRef →
      deleteOneWayReference item node =
        ({ node with references := (node.references.set i lastRef).dropLast },
         UA_STATUSCODE_GOOD)) := by
  constructor
  · intro h
    simp only [deleteOneWayReference]
    rw [findMatchDown_eq_none h]
  · intro i r lastRef hi hm hmax hlast
    have hilen : i < node.references.length := by
      by_contra hc
      rw [List.getElem?_eq_none (Nat.le_of_not_lt hc)] at hi
      cases hi
    simp only [deleteOneWayReference]
    rw [findMatchDown_eq_some hi hm hmax node.references.length le_rfl hilen, hlast]

/-- Claim C7 counterexample: the claim as stated says the FIRST matching
edge is removed.  On a node with two matching edges (differing only in the
target's server index, which the match does not compare), the code removes
the second one: the first matching edge survives. -/
theorem deleteOneWayReference_first_match_counterexample :
    deleteOneWayReference cex7item cex7node ≠
      deleteOneWayReferenceFirstMatch cex7item cex7node ∧
    refMatchesDeleteItem cex7item cex7edgeA = true ∧
    refMatchesDeleteItem cex7item cex7edgeB = true ∧
    deleteOneWayReference cex7item cex7node =
      ({ cex7node with references := [cex7edgeA] }, UA_STATUSCODE_GOOD) := by
  decide

/-- Witness for the amended claim C7 at a concrete input: the single
matching edge of `cex7node`'s first edge alone is removed and the array is
freed. -/
theorem deleteOneWayReference_removes_last_match_witness :
    deleteOneWayReference cex7item { cex7node with references := [cex7edgeA] } =
      ({ cex7node with references := [] }, UA_STATUSCODE_GOOD) :=
  (deleteOneWayReference_removes_last_match cex7item
      { cex7node with references := [cex7edgeA] }).2 0 cex7edgeA cex7edgeA
    (by decide) (by decide)
    (by
      intro j s hj hs
      rw [List.getElem?_eq_none
        (by simp only [List.length_cons, List.length_nil]; omega)] at hs
      cases hs)
    (by decide)

/-! ## Claim C10: class-guarded setters -/

/-- Claim C10: each node-specific setter rejects a node of the wrong class
with BadNodeClassInvalid and leaves it unchanged (value callback and data
source need a Variable, lifecycle management an ObjectType, the method
callback a Method); on the correct class each setter succeeds and modifies
only its designated fields. -/
theorem nodeClassGuardedSetters (node : UA_Node) (cb : UA_ValueCallback)
    (ds : UA_DataSource) (olm : UA_ObjectLifecycleManagement)
    (mcb : UA_MethodCallback) (h : Nat) :
    (node.nodeClass ≠ .VARIABLE →
      setValueCallback cb node = (node, UA_STATUSCODE_BADNODECLASSINVALID) ∧
      setDataSource ds node = (node, UA_STATUSCODE_BADNODECLASSINVALID)) ∧
    (node.nodeClass ≠ .OBJECTTYPE →
      setOLM olm node = (node, UA_STATUSCODE_BADNODECLASSINVALID)) ∧
    (node.nodeClass ≠ .METHOD →
      editMethodCallback mcb h node = (node, UA_STATUSCODE_BADNODECLASSINVALID)) ∧
    (node.nodeClass = .VARIABLE →
      setValueCallback cb node =
        ({ node with valueCallback := cb }, UA_STATUSCODE_GOOD) ∧
      setDataSource ds node =
        ({ node with
            value := if node.valueSource = .DATA then {} else node.value,
            dataSource := ds, valueSource := .DATASOURCE },
         UA_STATUSCODE_GOOD)) ∧
    (node.nodeClass = .OBJECTTYPE →
      setOLM olm node =
        ({ node with lifecycleManagement := olm }, UA_STATUSCODE_GOOD)) ∧
    (node.nodeClass = .METHOD →
      editMethodCallback mcb h node =
        ({ node with attachedMethod := mcb, methodHandle := h },
         UA_STATUSCODE_GOOD)) := by
  refine ⟨?_, ?_, ?_, ?_, ?_, ?_⟩
  · intro hc
    exact ⟨by simp [setValueCallback, hc], by simp [setDataSource, hc]⟩
  · intro hc; simp [setOLM, hc]
  · intro hc; simp [editMethodCallback, hc]
  · intro hc
    refine ⟨by simp [setValueCallback, hc], ?_⟩
    by_cases hv : node.valueSource = UA_ValueSource.DATA
    · simp [setDataSource, hc, hv]
    · simp [setDataSource, hc, hv]
  · intro hc; simp [setOLM, hc]
  · intro hc; simp [editMethodCallback, hc]

/-- Witness for claim C10 at concrete nodes: the value-callback setter
succeeds on a Variable node, and the lifecycle setter rejects the same
Variable node. -/
theorem nodeClassGuardedSetters_witness :
    setValueCallback 7 w10node =
      ({ w10node with valueCallback := 7 }, UA_STATUSCODE_GOOD) ∧
    setOLM ⟨some 1, some 2⟩ w10node =
      (w10node, UA_STATUSCODE_BADNODECLASSINVALID) :=
  ⟨((nodeClassGuardedSetters w10node 7 0 ⟨some 1, some 2⟩ none 0).2.2.2.1
      rfl).1,
   (nodeClassGuardedSetters w10node 7 0 ⟨some 1, some 2⟩ none 0).2.1
      (by decide)⟩

/-! ## Claim C3: checkParentReference -/

/-- Claim C3: `checkParentReference` evaluates its rules in order —
BadParentNodeIdInvalid when the parent does not resolve; else
BadReferenceTypeIdInvalid when the reference type does not resolve or is not
a ReferenceType node; else BadReferenceNotAllowed when it is abstract; else,
for type-class nodes, BadReferenceNotAllowed unless the reference type is
exactly hasSubtype, BadParentNodeIdInvalid when the parent's class differs,
GOOD otherwise; else (non-type classes) GOOD iff the reference type is a
non-strict hasSubtype-descendant of HierarchicalReferences, else
BadReferenceTypeIdInvalid. -/
theorem checkParentReference_spec (ns : List UA_Node)
    (nodeClass : UA_NodeClass) (parentNodeId referenceTypeId : UA_NodeId) :
    (UA_NodeStore_get ns parentNodeId = none →
      checkParentReference ns nodeClass parentNodeId referenceTypeId =
        UA_STATUSCODE_BADPARENTNODEIDINVALID) ∧
    (∀ parent, UA_NodeStore_get ns parentNodeId = some parent →
      (UA_NodeStore_get ns referenceTypeId = none →
        checkParentReference ns nodeClass parentNodeId referenceTypeId =
          UA_STATUSCODE_BADREFERENCETYPEIDINVALID) ∧
      (∀ rt, UA_NodeStore_get ns referenceTypeId = some rt →
        (rt.nodeClass ≠ .REFERENCETYPE →
          checkParentReference ns nodeClass parentNodeId referenceTypeId =
            UA_STATUSCODE_BADREFERENCETYPEIDINVALID) ∧
        (rt.nodeClass = .REFERENCETYPE → rt.isAbstract = true →
          checkParentReference ns nodeClass parentNodeId referenceTypeId =
            UA_STATUSCODE_BADREFERENCENOTALLOWED) ∧
        (rt.nodeClass = .REFERENCETYPE → rt.isAbstract = false →
          (nodeClass ∈ typeNodeClasses →
            (referenceTypeId ≠ hasSubtypeId →
              checkParentReference ns nodeClass parentNodeId referenceTypeId =
                UA_STATUSCODE_BADREFERENCENOTALLOWED) ∧
            (referenceTypeId = hasSubtypeId → parent.nodeClass ≠ nodeClass →
              checkParentReference ns nodeClass parentNodeId referenceTypeId =
                UA_STATUSCODE_BADPARENTNODEIDINVALID) ∧
            (referenceTypeId = hasSubtypeId → parent.nodeClass = nodeClass →
              checkParentReference ns nodeClass parentNodeId referenceTypeId =
                UA_STATUSCODE_GOOD)) ∧
          (nodeClass ∉ typeNodeClasses →
            (checkParentReference ns nodeClass parentNodeId referenceTypeId =
                UA_STATUSCODE_GOOD ↔
              isNodeInTree ns referenceTypeId hierarchicalReferencesId
                [hasSubtypeId] = true) ∧
            (isNodeInTree ns referenceTypeId hierarchicalReferencesId
                [hasSubtypeId] = false →
              checkParentReference ns nodeClass parentNodeId referenceTypeId =
                UA_STATUSCODE_BADREFERENCETYPEIDINVALID))))) := by
  refine ⟨?_, ?_⟩
  · intro h; simp [checkParentReference, h]
  · intro parent hp
    refine ⟨?_, ?_⟩
    · intro h; simp [checkParentReference, hp, h]
    · intro rt hrt
      refine ⟨?_, ?_, ?_⟩
      · intro h; simp [checkParentReference, hp, hrt, h]
      · intro h1 h2; simp [checkParentReference, hp, hrt, h1, h2]
      · intro h1 h2
        refine ⟨?_, ?_⟩
        · intro htc
          refine ⟨?_, ?_, ?_⟩
          · intro hne; simp [checkParentReference, hp, hrt, h1, h2, htc, hne]
          · intro heq hcls
            subst heq
            simp [checkParentReference, hp, hrt, h1, h2, htc, hcls]
          · intro heq hcls
            subst heq
            simp [checkParentReference, hp, hrt, h1, h2, htc, hcls]
        · intro htc
          refine ⟨?_, ?_⟩
          · cases htree : isNodeInTree ns referenceTypeId
                hierarchicalReferencesId [hasSubtypeId] with
            | true =>
              simp [checkParentReference, hp, hrt, h1, h2, htc, htree]
            | false =>
              simp only [checkParentReference, hp, hrt, h1, h2, htc, htree]
              simp [UA_STATUSCODE_GOOD, UA_STATUSCODE_BADREFERENCETYPEIDINVALID]
          · intro htree
            simp [checkParentReference, hp, hrt, h1, h2, htc, htree]

/-- Witness for claim C3: adding an ObjectType below an ObjectType parent
via Organizes (a valid hierarchical reference type, but not hasSubtype) is
rejected with BadReferenceNotAllowed. -/
theorem checkParentReference_spec_witness :
    checkParentReference w3store .OBJECTTYPE ⟨0, .numeric 58⟩ ⟨0, .numeric 35⟩ =
      UA_STATUSCODE_BADREFERENCENOTALLOWED :=
  ((((checkParentReference_spec w3store .OBJECTTYPE ⟨0, .numeric 58⟩
        ⟨0, .numeric 35⟩).2 w3parent (by decide)).2 w3organizes
      (by decide)).2.2 rfl rfl).1 (by decide) |>.1 (by decide)

/-! ## Claim C4: the variable type check -/

/-- Claim C4: during type checking of a Variable or VariableType node
against its variable type, a type-parent id that does not resolve to a
VariableType node yields BadTypeDefinitionInvalid; a Variable (not a
VariableType) whose resolved VariableType is abstract also yields
BadTypeDefinitionInvalid; a dataType that is not a non-strict
hasSubtype-descendant of the VariableType's dataType yields BadTypeMismatch;
and the node BaseDataVariableType itself is exempt from all of it.
The value-shape tail of the check is abstract (`vc`), so these outcomes hold
for every instance of it. -/
theorem typeCheckVariableNode_spec (vc : UA_ValueCheck) (ns : List UA_Node)
    (typeDef : UA_NodeId) (node : UA_Node) :
    (node.nodeId = baseDataVariableTypeId →
      (typeCheckVariableNode vc ns typeDef node).2 = UA_STATUSCODE_GOOD) ∧
    (node.nodeId ≠ baseDataVariableTypeId →
      (UA_NodeStore_get ns typeDef = none →
        (typeCheckVariableNode vc ns typeDef node).2 =
          UA_STATUSCODE_BADTYPEDEFINITIONINVALID) ∧
      (∀ vt, UA_NodeStore_get ns typeDef = some vt →
        (vt.nodeClass ≠ .VARIABLETYPE →
          (typeCheckVariableNode vc ns typeDef node).2 =
            UA_STATUSCODE_BADTYPEDEFINITIONINVALID) ∧
        (vt.nodeClass = .VARIABLETYPE → node.nodeClass = .VARIABLE →
          vt.isAbstract = true →
          (typeCheckVariableNode vc ns typeDef node).2 =
            UA_STATUSCODE_BADTYPEDEFINITIONINVALID) ∧
        (vt.nodeClass = .VARIABLETYPE →
          (node.nodeClass = .VARIABLE → vt.isAbstract = false) →
          UA_NodeId_isNull node.dataType = false →
          isNodeInTree ns node.dataType vt.dataType [hasSubtypeId] = false →
          (typeCheckVariableNode vc ns typeDef node).2 =
            UA_STATUSCODE_BADTYPEMISMATCH))) := by
  refine ⟨?_, ?_⟩
  · intro hbase
    by_cases hdt : UA_NodeId_isNull node.dataType <;>
      simp [typeCheckVariableNode, hbase, hdt]
  · intro hbase
    refine ⟨?_, ?_⟩
    · intro hvt
      by_cases hdt : UA_NodeId_isNull node.dataType <;>
        simp [typeCheckVariableNode, hbase, hdt, hvt]
    · intro vt hvt
      refine ⟨?_, ?_, ?_⟩
      · intro hcls
        by_cases hdt : UA_NodeId_isNull node.dataType <;>
          simp [typeCheckVariableNode, hbase, hdt, hvt, hcls]
      · intro hcls hvar habs
        by_cases hdt : UA_NodeId_isNull node.dataType <;>
          simp [typeCheckVariableNode, hbase, hdt, hvt, hcls, hvar, habs]
      · intro hcls habs hdt htree
        by_cases hvar : node.nodeClass = .VARIABLE
        · simp [typeCheckVariableNode, hbase, hdt, hvt, hcls, hvar,
            habs hvar, htree]
        · simp [typeCheckVariableNode, hbase, hdt, hvt, hcls, hvar, htree]

/-- Witness for claim C4: a Variable declared with an abstract VariableType
is rejected with BadTypeDefinitionInvalid. -/
theorem typeCheckVariableNode_spec_witness :
    (typeCheckVariableNode trivialValueCheck w4store ⟨0, .numeric 70⟩
        w4node).2 = UA_STATUSCODE_BADTYPEDEFINITIONINVALID :=
  ((typeCheckVariableNode_spec trivialValueCheck w4store ⟨0, .numeric 70⟩
      w4node).2 (by decide)).2 w4vtAbstract (by decide) |>.2.1 rfl rfl rfl

/-! ## Claim C1: AddReferences with rollback -/

/-- Deleting the rollback item right after `addOneWayReference` appended its
edge removes exactly that edge and restores the node. -/
theorem deleteOneWay_rollback (item : UA_AddReferencesItem) (n : UA_Node) :
    deleteOneWayReference
      { sourceNodeId := item.sourceNodeId
        referenceTypeId := item.referenceTypeId
        isForward := item.isForward
        targetNodeId := item.targetNodeId
        deleteBidirectional := false }
      ((addOneWayReference item n).1) = (n, UA_STATUSCODE_GOOD) := by
  have hm : refMatchesDeleteItem
      { sourceNodeId := item.sourceNodeId
        referenceTypeId := item.referenceTypeId
        isForward := item.isForward
        targetNodeId := item.targetNodeId
        deleteBidirectional := false }
      ⟨item.referenceTypeId, item.targetNodeId, !item.isForward⟩ = true := by
    simp only [refMatchesDeleteItem]
    cases item.isForward <;> simp
  have hlen : (n.references ++
      [(⟨item.referenceTypeId, item.targetNodeId, !item.isForward⟩ :
        UA_ReferenceNode)]).length = n.references.length + 1 := by
    simp
  simp only [deleteOneWayReference, addOneWayReference]
  rw [hlen,
    findMatchDown_eq_some (i := n.references.length)
      (by simp) hm
      (by
        intro j sj hj hsj
        rw [List.getElem?_eq_none (by simp; omega)] at hsj
        cases hsj)
      (n.references.length + 1) (by simp) (Nat.lt_succ_self _),
    List.getLast?_concat]
  have hset : (n.references ++
        [(⟨item.referenceTypeId, item.targetNodeId, !item.isForward⟩ :
          UA_ReferenceNode)]).set n.references.length
        ⟨item.referenceTypeId, item.targetNodeId, !item.isForward⟩ =
      n.references ++
        [⟨item.referenceTypeId, item.targetNodeId, !item.isForward⟩] := by
    induction n.references with
    | nil => rfl
    | cons x xs ih =>
      simp only [List.cons_append, List.length_cons, List.set_cons_succ]
      rw [ih]
  simp [hset, List.dropLast_concat]

/-- Claim C1: for an AddReferences item with a local target,
`Service_AddReferences_single` first adds the one-way edge on the source and
then the flipped edge on the target; if the second step fails, the edge
added on the source is deleted again (the delete's status is ignored), the
second step's error is returned, and the source node is exactly as before;
an item with non-empty targetServerUri is rejected with BadNotImplemented
before any mutation. -/
theorem Service_AddReferences_single_spec (s : UA_Server)
    (item : UA_AddReferencesItem) :
    (item.targetServerUri.length > 0 →
      Service_AddReferences_single s item = (s, UA_STATUSCODE_BADNOTIMPLEMENTED)) ∧
    (item.targetServerUri = "" → ∀ sn,
      UA_NodeStore_get s.nodestore item.sourceNodeId = some sn →
      (UA_NodeStore_get s.nodestore item.targetNodeId.nodeId = none →
        (Service_AddReferences_single s item).2 = UA_STATUSCODE_BADNODEIDUNKNOWN ∧
        UA_NodeStore_get (Service_AddReferences_single s item).1.nodestore
          item.sourceNodeId = some sn) ∧
      (∀ tn, item.sourceNodeId ≠ item.targetNodeId.nodeId →
        UA_NodeStore_get s.nodestore item.targetNodeId.nodeId = some tn →
        (Service_AddReferences_single s item).2 = UA_STATUSCODE_GOOD ∧
        UA_NodeStore_get (Service_AddReferences_single s item).1.nodestore
          item.sourceNodeId = some
            { sn with references := sn.references ++
                [⟨item.referenceTypeId, item.targetNodeId, !item.isForward⟩] } ∧
        UA_NodeStore_get (Service_AddReferences_single s item).1.nodestore
          item.targetNodeId.nodeId = some
            { tn with references := tn.references ++
                [⟨item.referenceTypeId, ⟨item.sourceNodeId, "", 0⟩,
                  item.isForward⟩] })) := by
  refine ⟨?_, ?_⟩
  · intro h; simp [Service_AddReferences_single, h]
  · intro huri sn hsn
    have huri' : ¬ item.targetServerUri.length > 0 := by simp [huri]
    have hsnid : sn.nodeId = item.sourceNodeId := UA_NodeStore_get_nodeId hsn
    have haddid : ((addOneWayReference item sn).1).nodeId = item.sourceNodeId := by
      simp [addOneWayReference, hsnid]
    constructor
    · intro htn
      have hne : item.targetNodeId.nodeId ≠ item.sourceNodeId := by
        intro hc
        rw [hc, hsn] at htn
        cases htn
      have hget1 : UA_NodeStore_get
          (replaceNode s.nodestore item.sourceNodeId
            ((addOneWayReference item sn).1))
          item.targetNodeId.nodeId = none := by
        rw [get_replaceNode_ne haddid hne]; exact htn
      have hget2 : UA_NodeStore_get
          (replaceNode s.nodestore item.sourceNodeId
            ((addOneWayReference item sn).1))
          item.sourceNodeId = some ((addOneWayReference item sn).1) :=
        get_replaceNode_self haddid hsn
      have hrw : Service_AddReferences_single s item =
          ({ s with nodestore := replaceNode (replaceNode s.nodestore item.sourceNodeId ((addOneWayReference item sn).1)) item.sourceNodeId sn }, UA_STATUSCODE_BADNODEIDUNKNOWN) := by
        simp only [Service_AddReferences_single, if_neg huri',
          UA_Server_editNode_of_some hsn,
          UA_Server_editNode_of_none (s := { s with nodestore := _ }) hget1,
          UA_Server_editNode_of_some (s := { s with nodestore := _ }) hget2,
          deleteOneWay_rollback]
        norm_num [addOneWayReference, UA_STATUSCODE_BADNODEIDUNKNOWN,
          UA_STATUSCODE_GOOD]
      rw [hrw]
      exact ⟨rfl, get_replaceNode_self hsnid hget2⟩
    · intro tn hnst htn
      have hne : item.targetNodeId.nodeId ≠ item.sourceNodeId :=
        fun hc => hnst hc.symm
      have htnid : tn.nodeId = item.targetNodeId.nodeId :=
        UA_NodeStore_get_nodeId htn
      have hget1 : UA_NodeStore_get
          (replaceNode s.nodestore item.sourceNodeId
            ((addOneWayReference item sn).1))
          item.targetNodeId.nodeId = some tn := by
        rw [get_replaceNode_ne haddid hne]; exact htn
      have hrw : Service_AddReferences_single s item =
          ({ s with nodestore := replaceNode (replaceNode s.nodestore item.sourceNodeId ((addOneWayReference item sn).1)) item.targetNodeId.nodeId ((addOneWayReference (flippedItem item) tn).1) }, UA_STATUSCODE_GOOD) := by
        simp only [Service_AddReferences_single, if_neg huri',
          UA_Server_editNode_of_some hsn,
          UA_Server_editNode_of_some (s := { s with nodestore := _ }) hget1]
        norm_num [addOneWayReference, UA_STATUSCODE_GOOD, flippedItem]
      rw [hrw]
      refine ⟨rfl, ?_, ?_⟩
      · have hgs : UA_NodeStore_get (replaceNode (replaceNode s.nodestore item.sourceNodeId ((addOneWayReference item sn).1)) item.targetNodeId.nodeId ((addOneWayReference (flippedItem item) tn).1)) item.sourceNodeId = some ((addOneWayReference item sn).1) := by
          rw [get_replaceNode_ne (by simpa [addOneWayReference, flippedItem]) hnst]
          exact get_replaceNode_self haddid hsn
        simpa [addOneWayReference] using hgs
      · have hgt : UA_NodeStore_get (replaceNode (replaceNode s.nodestore item.sourceNodeId ((addOneWayReference item sn).1)) item.targetNodeId.nodeId ((addOneWayReference (flippedItem item) tn).1)) item.targetNodeId.nodeId = some ((addOneWayReference (flippedItem item) tn).1) :=
          get_replaceNode_self (by simpa [addOneWayReference, flippedItem])
            (by rw [hget1])
        simpa [addOneWayReference, flippedItem, Bool.not_not] using hgt

/-- Witness for claim C1: adding a reference between two concrete present
nodes succeeds and installs the forward edge on the source and the flipped
edge on the target. -/
theorem Service_AddReferences_single_spec_witness :
    (Service_AddReferences_single w1server w1item).2 = UA_STATUSCODE_GOOD ∧
    UA_NodeStore_get (Service_AddReferences_single w1server w1item).1.nodestore
      ⟨0, .numeric 400⟩ = some
        { w1src with references :=
            [⟨⟨0, .numeric 47⟩, ⟨⟨0, .numeric 401⟩, "", 0⟩, false⟩] } := by
  have h := ((Service_AddReferences_single_spec w1server w1item).2 rfl w1src
      (by decide)).2 w1tgt (by decide) (by decide)
  exact ⟨h.1, by simpa using h.2.1⟩

/-! ## Preservation toolkit -/

theorem attrsEq_nodeId {a b : UA_Node} (h : attrsEq a b) : a.nodeId = b.nodeId := by
  have := congrArg UA_Node.nodeId h
  simpa [UA_Node.withRefs] using this

theorem attrsEq_refl (a : UA_Node) : attrsEq a a := rfl

theorem attrsEq_trans {a b c : UA_Node} (h1 : attrsEq a b) (h2 : attrsEq b c) :
    attrsEq a c := h1.trans h2

theorem preservesNodes_refl (ns : List UA_Node) : preservesNodes ns ns :=
  fun _ n h => ⟨n, h, attrsEq_refl n⟩

theorem preservesNodes_trans {a b c : List UA_Node}
    (h1 : preservesNodes a b) (h2 : preservesNodes b c) : preservesNodes a c := by
  intro id n h
  obtain ⟨n', hb, e1⟩ := h1 id n h
  obtain ⟨n'', hc, e2⟩ := h2 id n' hb
  exact ⟨n'', hc, attrsEq_trans e1 e2⟩

theorem preservesNodesExcept_of {x : UA_NodeId} {a b : List UA_Node}
    (h : preservesNodes a b) : preservesNodesExcept x a b :=
  fun id n _ hn => h id n hn

theorem preservesNodesExcept_refl (x : UA_NodeId) (ns : List UA_Node) :
    preservesNodesExcept x ns ns :=
  preservesNodesExcept_of (preservesNodes_refl ns)

theorem preservesNodesExcept_trans {x : UA_NodeId} {a b c : List UA_Node}
    (h1 : preservesNodesExcept x a b) (h2 : preservesNodesExcept x b c) :
    preservesNodesExcept x a c := by
  intro id n hne hn
  obtain ⟨n', hb, e1⟩ := h1 id n hne hn
  obtain ⟨n'', hc, e2⟩ := h2 id n' hne hb
  exact ⟨n'', hc, attrsEq_trans e1 e2⟩

theorem preservesNodesExcept_trans_left {x : UA_NodeId} {a b c : List UA_Node}
    (h1 : preservesNodes a b) (h2 : preservesNodesExcept x b c) :
    preservesNodesExcept x a c :=
  preservesNodesExcept_trans (preservesNodesExcept_of h1) h2

theorem preservesNodesExcept_trans_right {x : UA_NodeId} {a b c : List UA_Node}
    (h1 : preservesNodesExcept x a b) (h2 : preservesNodes b c) :
    preservesNodesExcept x a c :=
  preservesNodesExcept_trans h1 (preservesNodesExcept_of h2)

/-- Replacing the node under `id` with an attrs-equal node preserves every
stored node up to references. -/
theorem preservesNodes_replace {ns : List UA_Node} {id : UA_NodeId}
    {n n' : UA_Node} (h : UA_NodeStore_get ns id = some n)
    (ha : attrsEq n n') : preservesNodes ns (replaceNode ns id n') := by
  have hid : n'.nodeId = id := by
    rw [← attrsEq_nodeId ha]
    exact UA_NodeStore_get_nodeId h
  intro id' m hm
  by_cases hii : id' = id
  · subst hii
    have hmn : m = n := by
      rw [hm] at h
      exact (Option.some.injEq _ _ ▸ h).symm ▸ rfl
    refine ⟨n', get_replaceNode_self hid hm, ?_⟩
    rw [hmn]
    exact ha
  · exact ⟨m, by rw [get_replaceNode_ne hid hii]; exact hm, attrsEq_refl m⟩

theorem deleteOneWayReference_attrsEq (item : UA_DeleteReferencesItem)
    (n : UA_Node) : attrsEq n ((deleteOneWayReference item n).1) := by
  simp only [deleteOneWayReference]
  split
  · rfl
  · split <;> rfl

theorem addOneWayReference_attrsEq (item : UA_AddReferencesItem)
    (n : UA_Node) : attrsEq n ((addOneWayReference item n).1) := rfl

/-- An `editNode` whose callback only touches the reference list preserves
every stored node up to references. -/
theorem editNode_preservesNodes {s : UA_Server} {id : UA_NodeId}
    {f : UA_Node → UA_Node × UA_StatusCode}
    (hf : ∀ n, attrsEq n ((f n).1)) :
    preservesNodes s.nodestore (UA_Server_editNode s id f).1.nodestore := by
  cases h : UA_NodeStore_get s.nodestore id with
  | none => rw [UA_Server_editNode_of_none h]; exact preservesNodes_refl _
  | some n =>
    rw [UA_Server_editNode_of_some h]
    exact preservesNodes_replace h (hf n)

/-- An `editNode` whose callback keeps the node id preserves all other
stored nodes up to references, and keeps the edited node present. -/
theorem editNode_preservesExcept {s : UA_Server} {id : UA_NodeId}
    {f : UA_Node → UA_Node × UA_StatusCode}
    (hf : ∀ n, ((f n).1).nodeId = n.nodeId) :
    preservesNodesExcept id s.nodestore (UA_Server_editNode s id f).1.nodestore ∧
    (∀ n, UA_NodeStore_get s.nodestore id = some n →
      UA_NodeStore_get (UA_Server_editNode s id f).1.nodestore id = some ((f n).1)) := by
  cases h : UA_NodeStore_get s.nodestore id with
  | none =>
    rw [UA_Server_editNode_of_none h]
    exact ⟨preservesNodesExcept_refl id _, fun n hn => nomatch hn⟩
  | some n =>
    rw [UA_Server_editNode_of_some h]
    have hid : ((f n).1).nodeId = id := by
      rw [hf n]; exact UA_NodeStore_get_nodeId h
    constructor
    · intro id' m hne hm
      exact ⟨m, by rw [get_replaceNode_ne hid hne]; exact hm, attrsEq_refl m⟩
    · intro n₀ hn₀
      injection hn₀ with hn₀'
      subst hn₀'
      exact get_replaceNode_self hid h

/-! ## DeleteNodes characterization (claim C6) -/

theorem destructorLoopStep_spec (nodeId : UA_NodeId) (node : UA_Node)
    (acc : UA_Server) (rd : UA_ReferenceDescription) :
    (destructorLoopStep nodeId node acc rd).nodestore = acc.nodestore ∧
    (destructorLoopStep nodeId node acc rd).namespacesSize = acc.namespacesSize ∧
    (destructorLoopStep nodeId node acc rd).events =
      acc.events ++ (destructorEventOf acc.nodestore nodeId node rd).toList := by
  unfold destructorLoopStep
  cases h : destructorEventOf acc.nodestore nodeId node rd <;> simp [h]

theorem destructorFold_spec (nodeId : UA_NodeId) (node : UA_Node) :
    ∀ (rds : List UA_ReferenceDescription) (acc : UA_Server),
    (rds.foldl (destructorLoopStep nodeId node) acc).nodestore = acc.nodestore ∧
    (rds.foldl (destructorLoopStep nodeId node) acc).namespacesSize =
      acc.namespacesSize ∧
    (rds.foldl (destructorLoopStep nodeId node) acc).events =
      acc.events ++ rds.filterMap (destructorEventOf acc.nodestore nodeId node) := by
  intro rds
  induction rds with
  | nil => intro acc; exact ⟨rfl, rfl, by simp⟩
  | cons rd rest ih =>
    intro acc
    obtain ⟨hs1, hs2, hs3⟩ := destructorLoopStep_spec nodeId node acc rd
    obtain ⟨h1, h2, h3⟩ := ih (destructorLoopStep nodeId node acc rd)
    refine ⟨by rw [List.foldl_cons, h1, hs1],
            by rw [List.foldl_cons, h2, hs2], ?_⟩
    rw [List.foldl_cons, h3, hs3, hs1]
    cases h : destructorEventOf acc.nodestore nodeId node rd <;>
      simp [List.filterMap_cons, h]

theorem deleteRefsStepStore_preserves (selfId : UA_NodeId)
    (acc : List UA_Node) (r : UA_ReferenceNode) :
    preservesNodes acc (deleteRefsStepStore selfId acc r) := by
  unfold deleteRefsStepStore
  cases h : UA_NodeStore_get acc r.targetId.nodeId with
  | none => exact preservesNodes_refl acc
  | some peer =>
    exact preservesNodes_replace h
      (deleteOneWayReference_attrsEq (flipDeleteItem selfId r) peer)

theorem refsFoldStore_preserves (selfId : UA_NodeId) :
    ∀ (refs : List UA_ReferenceNode) (acc : List UA_Node),
    preservesNodes acc (refs.foldl (deleteRefsStepStore selfId) acc) := by
  intro refs
  induction refs with
  | nil => intro acc; exact preservesNodes_refl acc
  | cons r rest ih =>
    intro acc
    exact preservesNodes_trans (deleteRefsStepStore_preserves selfId acc r)
      (ih (deleteRefsStepStore selfId acc r))

theorem refsFoldServer_spec (selfId : UA_NodeId) :
    ∀ (refs : List UA_ReferenceNode) (acc : UA_Server),
    (refs.foldl (deleteRefsStepServer selfId) acc).nodestore =
      refs.foldl (deleteRefsStepStore selfId) acc.nodestore ∧
    (refs.foldl (deleteRefsStepServer selfId) acc).namespacesSize =
      acc.namespacesSize ∧
    (refs.foldl (deleteRefsStepServer selfId) acc).events = acc.events := by
  intro refs
  induction refs with
  | nil => intro acc; exact ⟨rfl, rfl, rfl⟩
  | cons r rest ih =>
    intro acc
    have hstep : (deleteRefsStepServer selfId acc r).nodestore =
        deleteRefsStepStore selfId acc.nodestore r ∧
        (deleteRefsStepServer selfId acc r).namespacesSize = acc.namespacesSize ∧
        (deleteRefsStepServer selfId acc r).events = acc.events := by
      unfold deleteRefsStepServer deleteRefsStepStore
      cases h : UA_NodeStore_get acc.nodestore r.targetId.nodeId with
      | none => rw [UA_Server_editNode_of_none h]; exact ⟨rfl, rfl, rfl⟩
      | some peer => rw [UA_Server_editNode_of_some h]; exact ⟨rfl, rfl, rfl⟩
    obtain ⟨h1, h2, h3⟩ := ih (deleteRefsStepServer selfId acc r)
    simp only [List.foldl_cons]
    exact ⟨by rw [h1, hstep.1], by rw [h2, hstep.2.1], by rw [h3, hstep.2.2]⟩

/-- Full characterization of `Service_DeleteNodes_single` on a present
node: destructor events are appended, the peer `deleteOneWay` requests are
applied when asked for, the node is removed, and GOOD is returned. -/
theorem Service_DeleteNodes_single_char {s : UA_Server} {nodeId : UA_NodeId}
    {node : UA_Node} (b : Bool)
    (h : UA_NodeStore_get s.nodestore nodeId = some node) :
    Service_DeleteNodes_single s nodeId b =
      (⟨removeNode (if b then deleteNodeRefRequests s.nodestore node
            else s.nodestore) nodeId,
        s.namespacesSize,
        s.events ++ (if node.nodeClass = UA_NodeClass.OBJECT then
            destructorCallsOf s.nodestore nodeId node else [])⟩,
       UA_STATUSCODE_GOOD) := by
  simp only [Service_DeleteNodes_single, h]
  set rds := (browseNodeReferences s.nodestore nodeId hasSubtypeId true
    .INVERSE [.OBJECTTYPE]).2 with hrds
  set s1 := if node.nodeClass = UA_NodeClass.OBJECT then
      rds.foldl (destructorLoopStep nodeId node) s else s with hs1
  obtain ⟨hd1, hd2, hd3⟩ := destructorFold_spec nodeId node rds s
  have hs1store : s1.nodestore = s.nodestore := by
    rw [hs1]; split <;> simp [hd1]
  have hs1ns : s1.namespacesSize = s.namespacesSize := by
    rw [hs1]; split <;> simp [hd2]
  have hs1ev : s1.events = s.events ++
      (if node.nodeClass = UA_NodeClass.OBJECT then
        destructorCallsOf s.nodestore nodeId node else []) := by
    rw [hs1]; split
    · rw [hd3]; rfl
    · simp
  set s2 := if b then node.references.foldl (deleteRefsStepServer node.nodeId) s1
      else s1 with hs2
  obtain ⟨hf1, hf2, hf3⟩ := refsFoldServer_spec node.nodeId node.references s1
  have hs2store : s2.nodestore =
      (if b then deleteNodeRefRequests s.nodestore node else s.nodestore) := by
    rw [hs2]; cases b
    · simpa using hs1store
    · simp only [if_true, if_pos]
      rw [hf1, hs1store]
      rfl
  have hs2ns : s2.namespacesSize = s.namespacesSize := by
    rw [hs2]; cases b
    · simpa using hs1ns
    · simp only [if_pos]
      rw [hf2, hs1ns]
  have hs2ev : s2.events = s.events ++
      (if node.nodeClass = UA_NodeClass.OBJECT then
        destructorCallsOf s.nodestore nodeId node else []) := by
    rw [hs2]; cases b
    · simpa using hs1ev
    · simp only [if_pos]
      rw [hf3, hs1ev]
  have hpresent : ∃ n', UA_NodeStore_get s2.nodestore nodeId = some n' := by
    rw [hs2store]
    cases b
    · exact ⟨node, by simpa using h⟩
    · simp only [if_pos]
      obtain ⟨n', hn', _⟩ :=
        refsFoldStore_preserves node.nodeId node.references s.nodestore nodeId
          node h
      exact ⟨n', hn'⟩
  obtain ⟨n', hn'⟩ := hpresent
  simp only [UA_NodeStore_remove, hn']
  rw [Prod.mk.injEq]
  refine ⟨?_, rfl⟩
  have hrepr : ({ s2 with nodestore := removeNode s2.nodestore nodeId } : UA_Server) =
      ⟨removeNode s2.nodestore nodeId, s2.namespacesSize, s2.events⟩ := rfl
  rw [hrepr, hs2store, hs2ns, hs2ev]

theorem Service_DeleteNodes_single_of_none {s : UA_Server} {nodeId : UA_NodeId}
    (b : Bool) (h : UA_NodeStore_get s.nodestore nodeId = none) :
    Service_DeleteNodes_single s nodeId b = (s, UA_STATUSCODE_BADNODEIDUNKNOWN) := by
  simp [Service_DeleteNodes_single, h]

theorem Service_DeleteNodes_single_removes {s : UA_Server} {nodeId : UA_NodeId}
    {node : UA_Node} (b : Bool)
    (h : UA_NodeStore_get s.nodestore nodeId = some node) :
    UA_NodeStore_get (Service_DeleteNodes_single s nodeId b).1.nodestore
      nodeId = none := by
  rw [Service_DeleteNodes_single_char b h]
  exact get_removeNode_self

theorem Service_DeleteNodes_single_preservesExcept (s : UA_Server)
    (nodeId : UA_NodeId) (b : Bool) :
    preservesNodesExcept nodeId s.nodestore
      (Service_DeleteNodes_single s nodeId b).1.nodestore := by
  cases h : UA_NodeStore_get s.nodestore nodeId with
  | none =>
    rw [Service_DeleteNodes_single_of_none b h]
    exact preservesNodesExcept_refl _ _
  | some node =>
    rw [Service_DeleteNodes_single_char b h]
    intro id n hne hn
    have hX : ∃ n', UA_NodeStore_get
        (if b then deleteNodeRefRequests s.nodestore node else s.nodestore) id =
          some n' ∧ attrsEq n n' := by
      cases b
      · exact ⟨n, by simpa using hn, attrsEq_refl n⟩
      · simp only [if_pos]
        exact refsFoldStore_preserves node.nodeId node.references s.nodestore
          id n hn
    obtain ⟨n', hn', he⟩ := hX
    exact ⟨n', by rw [get_removeNode_ne hne]; exact hn', he⟩

/-- Claim C6: for an existing node, `Service_DeleteNodes_single` first
invokes (for an Object) the destructor of each ObjectType reached by
browsing the node's inverse hasSubtype edges (subtypes of hasSubtype
included) that carries one; then, if `deleteReferences` is true, requests
`deleteOneWayReference` on every edge's peer with the orientation flipped
(no consistency checks); finally removes the node and returns GOOD.  A node
id that does not resolve yields BadNodeIdUnknown with no state change. -/
theorem Service_DeleteNodes_single_spec (s : UA_Server) (nodeId : UA_NodeId)
    (deleteReferences : Bool) :
    (UA_NodeStore_get s.nodestore nodeId = none →
      Service_DeleteNodes_single s nodeId deleteReferences =
        (s, UA_STATUSCODE_BADNODEIDUNKNOWN)) ∧
    (∀ node, UA_NodeStore_get s.nodestore nodeId = some node →
      (Service_DeleteNodes_single s nodeId deleteReferences).2 =
        UA_STATUSCODE_GOOD ∧
      UA_NodeStore_get
        (Service_DeleteNodes_single s nodeId deleteReferences).1.nodestore
        nodeId = none ∧
      (Service_DeleteNodes_single s nodeId deleteReferences).1.events =
        s.events ++ (if node.nodeClass = UA_NodeClass.OBJECT then
          destructorCallsOf s.nodestore nodeId node else []) ∧
      (Service_DeleteNodes_single s nodeId deleteReferences).1.nodestore =
        removeNode (if deleteReferences then
          deleteNodeRefRequests s.nodestore node else s.nodestore) nodeId) := by
  refine ⟨Service_DeleteNodes_single_of_none deleteReferences, ?_⟩
  intro node h
  rw [Service_DeleteNodes_single_char deleteReferences h]
  exact ⟨rfl, get_removeNode_self, rfl, rfl⟩

/-- Witness for claim C6: deleting a concrete Object whose type carries
destructor 9 returns GOOD, records the destructor call with the node's
instance handle, and removes the node. -/
theorem Service_DeleteNodes_single_spec_witness :
    (Service_DeleteNodes_single w6server ⟨0, .numeric 501⟩ true).2 =
      UA_STATUSCODE_GOOD ∧
    (Service_DeleteNodes_single w6server ⟨0, .numeric 501⟩ true).1.events =
      [.destructorCall 9 ⟨0, .numeric 501⟩ 3] ∧
    UA_NodeStore_get
      (Service_DeleteNodes_single w6server ⟨0, .numeric 501⟩ true).1.nodestore
      ⟨0, .numeric 501⟩ = none := by
  have h := (Service_DeleteNodes_single_spec w6server ⟨0, .numeric 501⟩
      true).2 w6obj (by decide)
  exact ⟨h.1, by rw [h.2.2.1]; decide, h.2.1⟩

/-! ## Preservation through AddReferences and the type check -/

theorem preservesNodes_append (ns : List UA_Node) (m : UA_Node) :
    preservesNodes ns (ns ++ [m]) :=
  fun _ n h => ⟨n, get_append_some h, attrsEq_refl n⟩

theorem ARS_preservesNodes (s : UA_Server) (item : UA_AddReferencesItem) :
    preservesNodes s.nodestore
      (Service_AddReferences_single s item).1.nodestore := by
  simp only [Service_AddReferences_single]
  split
  · exact preservesNodes_refl _
  · split
    · exact editNode_preservesNodes (fun n => addOneWayReference_attrsEq item n)
    · split
      · exact preservesNodes_trans
          (editNode_preservesNodes (fun n => addOneWayReference_attrsEq item n))
          (preservesNodes_trans
            (editNode_preservesNodes (fun n => addOneWayReference_attrsEq _ n))
            (editNode_preservesNodes (fun n => deleteOneWayReference_attrsEq _ n)))
      · exact preservesNodes_trans
          (editNode_preservesNodes (fun n => addOneWayReference_attrsEq item n))
          (editNode_preservesNodes (fun n => addOneWayReference_attrsEq _ n))

/-- `Service_AddReferences_single` never loses a stored node. -/
theorem ARS_presence {s : UA_Server} {item : UA_AddReferencesItem}
    {id : UA_NodeId} {n : UA_Node}
    (h : UA_NodeStore_get s.nodestore id = some n) :
    ∃ n', UA_NodeStore_get
      (Service_AddReferences_single s item).1.nodestore id = some n' := by
  obtain ⟨n', h', _⟩ := ARS_preservesNodes s item id n h
  exact ⟨n', h'⟩

theorem typeCheckVariableNode_nodeId (vc : UA_ValueCheck)
    (hvc : UA_ValueCheckOk vc) (ns : List UA_Node) (td : UA_NodeId)
    (n : UA_Node) :
    ((typeCheckVariableNode vc ns td n).1).nodeId = n.nodeId := by
  by_cases hdt : UA_NodeId_isNull n.dataType
  · simp only [typeCheckVariableNode, hdt, if_true]
    repeat' split
    all_goals first | rfl | exact (hvc _).1
  · simp only [typeCheckVariableNode, hdt, if_false]
    repeat' split
    all_goals first | rfl | exact (hvc _).1

theorem setObjectInstanceHandle_nodeId (c : Nat) (n : UA_Node) :
    ((setObjectInstanceHandle c n).1).nodeId = n.nodeId := by
  simp only [setObjectInstanceHandle]
  split
  · rfl
  · split <;> rfl

theorem typeCheckNode_preserves (vc : UA_ValueCheck) (hvc : UA_ValueCheckOk vc)
    (s : UA_Server) (nodeId : UA_NodeId) (nc : UA_NodeClass)
    (p t : UA_NodeId) :
    preservesNodesExcept nodeId s.nodestore
      (typeCheckNode vc s nodeId nc p t).1.nodestore ∧
    (∀ n, UA_NodeStore_get s.nodestore nodeId = some n →
      ∃ n', UA_NodeStore_get (typeCheckNode vc s nodeId nc p t).1.nodestore
        nodeId = some n') := by
  cases nc with
  | VARIABLE =>
    have h := @editNode_preservesExcept s nodeId
      (typeCheckVariableNode vc s.nodestore t)
      (fun n => typeCheckVariableNode_nodeId vc hvc s.nodestore t n)
    exact ⟨h.1, fun n hn => ⟨_, h.2 n hn⟩⟩
  | VARIABLETYPE =>
    have h := @editNode_preservesExcept s nodeId
      (typeCheckVariableNode vc s.nodestore p)
      (fun n => typeCheckVariableNode_nodeId vc hvc s.nodestore p n)
    exact ⟨h.1, fun n hn => ⟨_, h.2 n hn⟩⟩
  | UNSPECIFIED => exact ⟨preservesNodesExcept_refl _ _, fun n hn => ⟨n, hn⟩⟩
  | OBJECT => exact ⟨preservesNodesExcept_refl _ _, fun n hn => ⟨n, hn⟩⟩
  | METHOD => exact ⟨preservesNodesExcept_refl _ _, fun n hn => ⟨n, hn⟩⟩
  | OBJECTTYPE => exact ⟨preservesNodesExcept_refl _ _, fun n hn => ⟨n, hn⟩⟩
  | REFERENCETYPE => exact ⟨preservesNodesExcept_refl _ _, fun n hn => ⟨n, hn⟩⟩
  | DATATYPE => exact ⟨preservesNodesExcept_refl _ _, fun n hn => ⟨n, hn⟩⟩
  | VIEW => exact ⟨preservesNodesExcept_refl _ _, fun n hn => ⟨n, hn⟩⟩

/-- Case analysis of `UA_Server_addNode_begin`: either it fails and leaves
the server untouched, or it appends a node under an id that was free. -/
theorem addNode_begin_cases (s : UA_Server) (node : UA_Node) :
    ((UA_Server_addNode_begin s node).1 = s ∧
      (UA_Server_addNode_begin s node).2.1 ≠ UA_STATUSCODE_GOOD) ∨
    (∃ node', (UA_Server_addNode_begin s node).1 =
        { s with nodestore := s.nodestore ++ [node'] } ∧
      (UA_Server_addNode_begin s node).2.1 = UA_STATUSCODE_GOOD ∧
      (UA_Server_addNode_begin s node).2.2 = node'.nodeId ∧
      UA_NodeStore_get s.nodestore node'.nodeId = none) := by
  simp only [UA_Server_addNode_begin, UA_NodeStore_insert]
  split
  · exact Or.inl ⟨rfl,
      by exact (by decide : UA_STATUSCODE_BADNODEIDINVALID ≠ UA_STATUSCODE_GOOD)⟩
  · set node' := if needsFreshId node.nodeId then
      { node with nodeId := freshNumericId s.nodestore node.nodeId.namespaceIndex }
      else node with hn'
    cases hg : UA_NodeStore_get s.nodestore node'.nodeId with
    | some m =>
      simp only [hg]
      refine Or.inl ⟨?_, ?_⟩ <;>
        simp [UA_STATUSCODE_BADNODEIDEXISTS, UA_STATUSCODE_GOOD]
    | none =>
      simp only [hg]
      refine Or.inr ⟨node', ?_, ?_, ?_, hg⟩ <;>
        simp [UA_STATUSCODE_BADNODEIDEXISTS, UA_STATUSCODE_GOOD]

theorem preservesNodesExcept_ite {x : UA_NodeId} {pre : List UA_Node}
    {c : Prop} [Decidable c] {a b : UA_Server × UA_StatusCode}
    (ha : preservesNodesExcept x pre a.1.nodestore)
    (hb : preservesNodesExcept x pre b.1.nodestore) :
    preservesNodesExcept x pre (if c then a else b).1.nodestore := by
  split <;> assumption

theorem preservesNodes_ite {pre : List UA_Node}
    {c : Prop} [Decidable c] {a b : UA_Server × UA_StatusCode}
    (ha : preservesNodes pre a.1.nodestore)
    (hb : preservesNodes pre b.1.nodestore) :
    preservesNodes pre (if c then a else b).1.nodestore := by
  split <;> assumption

/-! ## Preservation through the whole AddNode nest

By induction on the fuel: every operation of the AddNode nest keeps every
node that was stored before it ran, unchanged except (possibly) for its
reference list; the orchestrator parts may additionally rewrite or delete
the one node they own (`preservesNodesExcept`). -/

theorem nest_preserves (vc : UA_ValueCheck) (hvc : UA_ValueCheckOk vc) :
    ∀ fuel : Nat,
    (∀ s node p rt td cb, preservesNodes s.nodestore
      (UA_Server_addNode vc fuel s node p rt td cb).1.nodestore) ∧
    (∀ s nodeId nc p rt td cb, preservesNodesExcept nodeId s.nodestore
      (UA_Server_addNode_finish vc fuel s nodeId nc p rt td cb).1.nodestore) ∧
    (∀ s nodeId nc t cb,
      preservesNodesExcept nodeId s.nodestore
        (instantiateNode vc fuel s nodeId nc t cb).1.nodestore ∧
      (∀ n, UA_NodeStore_get s.nodestore nodeId = some n →
        ∃ n', UA_NodeStore_get
          (instantiateNode vc fuel s nodeId nc t cb).1.nodestore nodeId =
            some n')) ∧
    (∀ s hier nid cb acc, preservesNodes s.nodestore
      (copyChildNodesHierarchy vc fuel s hier nid cb acc).1.nodestore) ∧
    (∀ s rds dst cb, preservesNodes s.nodestore
      (copyChildNodesLoop vc fuel s rds dst cb).1.nodestore) ∧
    (∀ s src dst cb, preservesNodes s.nodestore
      (copyChildNodes vc fuel s src dst cb).1.nodestore) := by
  intro fuel
  induction fuel with
  | zero =>
    refine ⟨?_, ?_, ?_, ?_, ?_, ?_⟩
    · intro s node p rt td cb
      simp only [UA_Server_addNode]
      exact preservesNodes_refl _
    · intro s nodeId nc p rt td cb
      simp only [UA_Server_addNode_finish]
      exact preservesNodesExcept_refl _ _
    · intro s nodeId nc t cb
      simp only [instantiateNode]
      exact ⟨preservesNodesExcept_refl _ _, fun n hn => ⟨n, hn⟩⟩
    · intro s hier nid cb acc
      simp only [copyChildNodesHierarchy]
      exact preservesNodes_refl _
    · intro s rds dst cb
      simp only [copyChildNodesLoop]
      exact preservesNodes_refl _
    · intro s src dst cb
      simp only [copyChildNodes]
      exact preservesNodes_refl _
  | succ fuel ih =>
    obtain ⟨ihAdd, ihFin, ihInst, ihHier, ihLoop, ihCopy⟩ := ih
    have hAdd : ∀ s node p rt td cb, preservesNodes s.nodestore
        (UA_Server_addNode vc (fuel+1) s node p rt td cb).1.nodestore := by
      intro s node p rt td cb
      simp only [UA_Server_addNode]
      rcases addNode_begin_cases s node with ⟨hb1, hb2⟩ |
        ⟨node', hb1, hb2, hb3, hfresh⟩
      · rw [if_pos hb2, hb1]
        exact preservesNodes_refl _
      · rw [if_neg (by rw [hb2]; simp), hb1, hb3]
        intro id n hn
        have hne : id ≠ node'.nodeId := by
          intro hc
          rw [hc, hfresh] at hn
          cases hn
        exact ihFin _ node'.nodeId node.nodeClass p rt td cb id n hne
          (get_append_some hn)
    have hInst : ∀ s nodeId nc t cb,
        preservesNodesExcept nodeId s.nodestore
          (instantiateNode vc (fuel+1) s nodeId nc t cb).1.nodestore ∧
        (∀ n, UA_NodeStore_get s.nodestore nodeId = some n →
          ∃ n', UA_NodeStore_get
            (instantiateNode vc (fuel+1) s nodeId nc t cb).1.nodestore nodeId =
              some n') := by
      intro s nodeId nc t cb
      constructor
      · simp only [instantiateNode]
        repeat' split
        all_goals
          first
          | exact preservesNodesExcept_refl _ _
          | exact preservesNodesExcept_of (ihHier _ _ _ _ _)
          | exact preservesNodesExcept_trans_left (ihHier _ _ _ _ _)
              (preservesNodesExcept_trans
                (editNode_preservesExcept
                  (fun k => setObjectInstanceHandle_nodeId _ k)).1
                (preservesNodesExcept_of (ARS_preservesNodes _ _)))
          | exact preservesNodesExcept_trans_left (ihHier _ _ _ _ _)
              (preservesNodesExcept_of (ARS_preservesNodes _ _))
      · simp only [instantiateNode]
        repeat' split
        all_goals intro n hn
        all_goals
          first
          | exact ⟨n, hn⟩
          | (obtain ⟨n', hn', _⟩ := ihHier _ _ _ _ _ _ n hn
             exact ⟨n', hn'⟩)
          | (obtain ⟨m, hm, _⟩ := ihHier _ _ _ _ _ _ n hn
             exact ARS_presence
               ((editNode_preservesExcept
                 (fun k => setObjectInstanceHandle_nodeId _ k)).2 m hm))
          | (obtain ⟨m, hm, _⟩ := ihHier _ _ _ _ _ _ n hn
             exact ARS_presence hm)
    have hFin : ∀ s nodeId nc p rt td cb,
        preservesNodesExcept nodeId s.nodestore
          (UA_Server_addNode_finish vc (fuel+1) s nodeId nc p rt td cb).1.nodestore := by
      intro s nodeId nc p rt td cb
      have htc := (typeCheckNode_preserves vc hvc s nodeId nc p
        (if UA_NodeId_isNull td then
          if nc = UA_NodeClass.VARIABLE then baseDataVariableTypeId
          else if nc = UA_NodeClass.OBJECT then baseObjectTypeId
          else td
        else td)).1
      simp only [UA_Server_addNode_finish]
      refine preservesNodesExcept_ite
        (Service_DeleteNodes_single_preservesExcept _ _ _) ?_
      refine preservesNodesExcept_ite
        (preservesNodesExcept_trans htc
          (Service_DeleteNodes_single_preservesExcept _ _ _)) ?_
      refine preservesNodesExcept_ite
        (preservesNodesExcept_trans htc
          (preservesNodesExcept_trans (ihInst _ _ _ _ _).1
            (Service_DeleteNodes_single_preservesExcept _ _ _))) ?_
      refine preservesNodesExcept_ite
        (preservesNodesExcept_ite
          (preservesNodesExcept_trans htc
            (preservesNodesExcept_trans (ihInst _ _ _ _ _).1
              (preservesNodesExcept_trans
                (preservesNodesExcept_of (ARS_preservesNodes _ _))
                (Service_DeleteNodes_single_preservesExcept _ _ _))))
          (preservesNodesExcept_trans htc
            (preservesNodesExcept_trans (ihInst _ _ _ _ _).1
              (preservesNodesExcept_of (ARS_preservesNodes _ _)))))
        (preservesNodesExcept_trans htc (ihInst _ _ _ _ _).1)
    have hHier : ∀ s hier nid cb acc, preservesNodes s.nodestore
        (copyChildNodesHierarchy vc (fuel+1) s hier nid cb acc).1.nodestore := by
      intro s hier nid cb acc
      cases hier with
      | nil =>
        simp only [copyChildNodesHierarchy]
        exact preservesNodes_refl _
      | cons srcId rest =>
        simp only [copyChildNodesHierarchy]
        exact preservesNodes_trans (ihCopy _ _ _ _) (ihHier _ _ _ _ _)
    have hLoop : ∀ s rds dst cb, preservesNodes s.nodestore
        (copyChildNodesLoop vc (fuel+1) s rds dst cb).1.nodestore := by
      intro s rds dst cb
      cases rds with
      | nil =>
        simp only [copyChildNodesLoop]
        exact preservesNodes_refl _
      | cons rd rest =>
        simp only [copyChildNodesLoop]
        repeat' split
        all_goals
          first
          | exact preservesNodes_refl _
          | exact ihLoop _ _ _ _
          | exact ARS_preservesNodes _ _
          | exact preservesNodes_trans (ARS_preservesNodes _ _)
              (ihLoop _ _ _ _)
          | exact ihAdd _ _ _ _ _ _
          | exact preservesNodes_trans (ihAdd _ _ _ _ _ _) (ihLoop _ _ _ _)
          | exact ihCopy _ _ _ _
          | exact preservesNodes_trans (ihCopy _ _ _ _) (ihLoop _ _ _ _)
    have hCopy : ∀ s src dst cb, preservesNodes s.nodestore
        (copyChildNodes vc (fuel+1) s src dst cb).1.nodestore := by
      intro s src dst cb
      simp only [copyChildNodes]
      split
      · exact preservesNodes_refl _
      · exact ihLoop _ _ _ _
    exact ⟨hAdd, hFin, hInst, hHier, hLoop, hCopy⟩

/-! ## Claim C5: merge-with-existing never overwrites -/

/-- Claim C5: whenever `copyChildNodes` instantiates a type's children onto
a destination, every node present before the copy — in particular an
existing forward Aggregates child of class Object, Variable or Method with a
matching browse name — is still stored under its id afterwards with every
field except its reference list unchanged: existing children are never
overwritten or replaced, the copy only recurses into them (adding edges for
descendants that were missing by browse name). -/
theorem copyChildNodes_preserves_existing (vc : UA_ValueCheck)
    (hvc : UA_ValueCheckOk vc) (fuel : Nat) (s : UA_Server)
    (sourceNodeId destinationNodeId : UA_NodeId) (cb : Option Nat) :
    ∀ id n, UA_NodeStore_get s.nodestore id = some n →
      ∃ n', UA_NodeStore_get
          (copyChildNodes vc fuel s sourceNodeId destinationNodeId
            cb).1.nodestore id = some n' ∧
        n.withRefs [] = n'.withRefs [] := by
  intro id n h
  exact (nest_preserves vc hvc fuel).2.2.2.2.2 s sourceNodeId
    destinationNodeId cb id n h

/-- Witness for claim C5: instantiating a type whose child "X" already
exists under the destination leaves the existing child "X" (node 603) in
place with all its attributes. -/
theorem copyChildNodes_preserves_existing_witness :
    ∃ n', UA_NodeStore_get
        (copyChildNodes trivialValueCheck 5 w5server ⟨0, .numeric 600⟩
          ⟨0, .numeric 602⟩ none).1.nodestore ⟨0, .numeric 603⟩ = some n' ∧
      w5echild.withRefs [] = n'.withRefs [] :=
  copyChildNodes_preserves_existing trivialValueCheck
    (fun n => ⟨rfl, rfl⟩) 5 w5server ⟨0, .numeric 600⟩ ⟨0, .numeric 602⟩ none
    ⟨0, .numeric 603⟩ w5echild (by decide)

/-! ## Claim C2: finish deletes the node on failure -/

/-- Case split for the rollback property over an `if`. -/
theorem rollbackProp_ite {nodeId : UA_NodeId} {c : Prop} [Decidable c]
    {a b : UA_Server × UA_StatusCode}
    (ha : c →
      (a.2 ≠ UA_STATUSCODE_GOOD →
        UA_NodeStore_get a.1.nodestore nodeId = none) ∧
      (a.2 = UA_STATUSCODE_GOOD →
        ∃ n', UA_NodeStore_get a.1.nodestore nodeId = some n'))
    (hb : ¬c →
      (b.2 ≠ UA_STATUSCODE_GOOD →
        UA_NodeStore_get b.1.nodestore nodeId = none) ∧
      (b.2 = UA_STATUSCODE_GOOD →
        ∃ n', UA_NodeStore_get b.1.nodestore nodeId = some n')) :
    ((if c then a else b).2 ≠ UA_STATUSCODE_GOOD →
      UA_NodeStore_get (if c then a else b).1.nodestore nodeId = none) ∧
    ((if c then a else b).2 = UA_STATUSCODE_GOOD →
      ∃ n', UA_NodeStore_get (if c then a else b).1.nodestore nodeId =
        some n') := by
  split
  · next hcc => exact ha hcc
  · next hcc => exact hb hcc

/-- Claim C2: for every `UA_Server_addNode_finish` call on a node already
inserted by `begin`, if the parent-reference validation, the type check, the
instantiation or the final parent-reference add fails, the node is deleted
from the NodeStore again (via `Service_DeleteNodes_single` with
`deleteReferences = true`) and that failing status is returned, so the node
is gone; only when every step succeeds (status GOOD) does the node remain in
the store. -/
theorem addNode_finish_rollback (vc : UA_ValueCheck)
    (hvc : UA_ValueCheckOk vc) (fuel : Nat) (s : UA_Server)
    (nodeId : UA_NodeId) (nc : UA_NodeClass) (p rt td : UA_NodeId)
    (cb : Option Nat) (n : UA_Node)
    (h : UA_NodeStore_get s.nodestore nodeId = some n) :
    ((UA_Server_addNode_finish vc (fuel+1) s nodeId nc p rt td cb).2 ≠
        UA_STATUSCODE_GOOD →
      UA_NodeStore_get
        (UA_Server_addNode_finish vc (fuel+1) s nodeId nc p rt td cb).1.nodestore
        nodeId = none) ∧
    ((UA_Server_addNode_finish vc (fuel+1) s nodeId nc p rt td cb).2 =
        UA_STATUSCODE_GOOD →
      ∃ n', UA_NodeStore_get
        (UA_Server_addNode_finish vc (fuel+1) s nodeId nc p rt td cb).1.nodestore
        nodeId = some n') := by
  have htc := typeCheckNode_preserves vc hvc s nodeId nc p
    (if UA_NodeId_isNull td then
      if nc = UA_NodeClass.VARIABLE then baseDataVariableTypeId
      else if nc = UA_NodeClass.OBJECT then baseObjectTypeId
      else td
    else td)
  obtain ⟨m, hm⟩ := htc.2 n h
  simp only [UA_Server_addNode_finish]
  refine rollbackProp_ite (fun hbad => ?_) (fun _ => ?_)
  · exact ⟨fun _ => Service_DeleteNodes_single_removes true h,
      fun hg => absurd hg hbad⟩
  · refine rollbackProp_ite (fun hbad => ?_) (fun _ => ?_)
    · exact ⟨fun _ => Service_DeleteNodes_single_removes true hm,
        fun hg => absurd hg hbad⟩
    · obtain ⟨m2, hm2⟩ :=
        ((nest_preserves vc hvc fuel).2.2.1 _ nodeId nc _ cb).2 m hm
      refine rollbackProp_ite (fun hbad => ?_) (fun _ => ?_)
      · exact ⟨fun _ => Service_DeleteNodes_single_removes true hm2,
          fun hg => absurd hg hbad⟩
      · refine rollbackProp_ite (fun _ => ?_) (fun _ => ?_)
        · refine rollbackProp_ite (fun hbad => ?_) (fun hok => ?_)
          · obtain ⟨m3, hm3⟩ := @ARS_presence _
              ⟨nodeId, rt, false, "", ⟨p, "", 0⟩, .UNSPECIFIED⟩ _ _ hm2
            exact ⟨fun _ => Service_DeleteNodes_single_removes true hm3,
              fun hg => absurd hg hbad⟩
          · obtain ⟨m3, hm3⟩ := @ARS_presence _
              ⟨nodeId, rt, false, "", ⟨p, "", 0⟩, .UNSPECIFIED⟩ _ _ hm2
            exact ⟨fun hne => absurd rfl hne, fun _ => ⟨m3, hm3⟩⟩
        · exact ⟨fun hne => absurd rfl hne, fun _ => ⟨m2, hm2⟩⟩

/-- Witness for claim C2: finishing a concrete node whose requested parent
does not exist fails and removes the node from the store again. -/
theorem addNode_finish_rollback_witness :
    UA_NodeStore_get
      (UA_Server_addNode_finish trivialValueCheck 3 w2server
        ⟨0, .numeric 700⟩ .OBJECT ⟨0, .numeric 999⟩ ⟨0, .numeric 35⟩
        nullNodeId none).1.nodestore ⟨0, .numeric 700⟩ = none :=
  (addNode_finish_rollback trivialValueCheck (fun n => ⟨rfl, rfl⟩) 2 w2server
      ⟨0, .numeric 700⟩ .OBJECT ⟨0, .numeric 999⟩ ⟨0, .numeric 35⟩
      nullNodeId none w2node (by decide)).1 (by decide)

/-! ## Claim C8: orphan objects -/

/-- A successful `Service_AddReferences_single` leaves the just-added
forward edge on the source node. -/
theorem ARS_success_edge (s : UA_Server) (item : UA_AddReferencesItem)
    (huri : item.targetServerUri = "")
    (h : (Service_AddReferences_single s item).2 = UA_STATUSCODE_GOOD) :
    ∃ n', UA_NodeStore_get
        (Service_AddReferences_single s item).1.nodestore item.sourceNodeId =
          some n' ∧
      (⟨item.referenceTypeId, item.targetNodeId, !item.isForward⟩ :
        UA_ReferenceNode) ∈ n'.references := by
  have huri' : ¬ item.targetServerUri.length > 0 := by simp [huri]
  cases hsn : UA_NodeStore_get s.nodestore item.sourceNodeId with
  | none =>
    have hrw : Service_AddReferences_single s item =
        (s, UA_STATUSCODE_BADNODEIDUNKNOWN) := by
      simp only [Service_AddReferences_single, if_neg huri',
        UA_Server_editNode_of_none hsn]
      norm_num [UA_STATUSCODE_BADNODEIDUNKNOWN, UA_STATUSCODE_GOOD]
    rw [hrw] at h
    simp [UA_STATUSCODE_BADNODEIDUNKNOWN, UA_STATUSCODE_GOOD] at h
  | some sn =>
    have hsnid : sn.nodeId = item.sourceNodeId := UA_NodeStore_get_nodeId hsn
    have haddid : ((addOneWayReference item sn).1).nodeId = item.sourceNodeId := by
      simp [addOneWayReference, hsnid]
    cases hgt : UA_NodeStore_get
        (replaceNode s.nodestore item.sourceNodeId
          ((addOneWayReference item sn).1))
        item.targetNodeId.nodeId with
    | none =>
      have hget2 : UA_NodeStore_get
          (replaceNode s.nodestore item.sourceNodeId
            ((addOneWayReference item sn).1))
          item.sourceNodeId = some ((addOneWayReference item sn).1) :=
        get_replaceNode_self haddid hsn
      have hrw : Service_AddReferences_single s item =
          ({ s with nodestore := replaceNode (replaceNode s.nodestore item.sourceNodeId ((addOneWayReference item sn).1)) item.sourceNodeId sn }, UA_STATUSCODE_BADNODEIDUNKNOWN) := by
        simp only [Service_AddReferences_single, if_neg huri',
          UA_Server_editNode_of_some hsn,
          UA_Server_editNode_of_none (s := { s with nodestore := _ }) hgt,
          UA_Server_editNode_of_some (s := { s with nodestore := _ }) hget2,
          deleteOneWay_rollback]
        norm_num [addOneWayReference, UA_STATUSCODE_BADNODEIDUNKNOWN,
          UA_STATUSCODE_GOOD]
      rw [hrw] at h
      simp [UA_STATUSCODE_BADNODEIDUNKNOWN, UA_STATUSCODE_GOOD] at h
    | some tn =>
      have htnid : tn.nodeId = item.targetNodeId.nodeId :=
        UA_NodeStore_get_nodeId hgt
      have hrw : Service_AddReferences_single s item =
          ({ s with nodestore := replaceNode (replaceNode s.nodestore item.sourceNodeId ((addOneWayReference item sn).1)) item.targetNodeId.nodeId ((addOneWayReference (flippedItem item) tn).1) }, UA_STATUSCODE_GOOD) := by
        simp only [Service_AddReferences_single, if_neg huri',
          UA_Server_editNode_of_some hsn,
          UA_Server_editNode_of_some (s := { s with nodestore := _ }) hgt]
        norm_num [addOneWayReference, UA_STATUSCODE_GOOD, flippedItem]
      rw [hrw]
      by_cases heq : item.targetNodeId.nodeId = item.sourceNodeId
      · have htneq : tn = (addOneWayReference item sn).1 := by
          rw [heq, get_replaceNode_self haddid hsn] at hgt
          injection hgt with hh
          exact hh.symm
        refine ⟨(addOneWayReference (flippedItem item) tn).1, ?_, ?_⟩
        · have hid2 : ((addOneWayReference (flippedItem item) tn).1).nodeId =
              item.targetNodeId.nodeId := by
            simp [addOneWayReference, htnid]
          rw [heq]
          exact get_replaceNode_self (hid2.trans heq) (heq ▸ hgt)
        · rw [show ((addOneWayReference (flippedItem item) tn).1).references =
              tn.references ++ [⟨item.referenceTypeId, ⟨item.sourceNodeId, "", 0⟩,
                !(!item.isForward)⟩] from rfl, htneq,
            show ((addOneWayReference item sn).1).references =
              sn.references ++ [⟨item.referenceTypeId, item.targetNodeId,
                !item.isForward⟩] from rfl]
          simp
      · refine ⟨(addOneWayReference item sn).1, ?_, ?_⟩
        · have hid2 : ((addOneWayReference (flippedItem item) tn).1).nodeId =
              item.targetNodeId.nodeId := by
            simp [addOneWayReference, htnid]
          rw [get_replaceNode_ne hid2 (fun hc => heq hc.symm)]
          exact get_replaceNode_self haddid hsn
        · rw [show ((addOneWayReference item sn).1).references =
              sn.references ++ [⟨item.referenceTypeId, item.targetNodeId,
                !item.isForward⟩] from rfl]
          simp

/-- The tail of `instantiateNode` (instantiation callback dispatch) keeps
the nodestore of the reference-add result, so an edge present there is
still present in the final result. -/
theorem instantiate_tail (ra : UA_Server × UA_StatusCode)
    (nodeId typeId : UA_NodeId) (cb : Option Nat)
    (hedge : ra.2 = UA_STATUSCODE_GOOD →
      ∃ n', UA_NodeStore_get ra.1.nodestore nodeId = some n' ∧
        (⟨hasTypeDefinitionId, ⟨typeId, "", 0⟩, false⟩ : UA_ReferenceNode) ∈
          n'.references)
    (h : (if ra.2 = UA_STATUSCODE_GOOD then
            (match cb with
             | some c => ({ ra.1 with events :=
                 ra.1.events ++ [.instantiationCall c nodeId typeId] }, ra.2)
             | none => ra)
          else ra).2 = UA_STATUSCODE_GOOD) :
    ∃ n', UA_NodeStore_get
        (if ra.2 = UA_STATUSCODE_GOOD then
            (match cb with
             | some c => ({ ra.1 with events :=
                 ra.1.events ++ [.instantiationCall c nodeId typeId] }, ra.2)
             | none => ra)
          else ra).1.nodestore nodeId = some n' ∧
      (⟨hasTypeDefinitionId, ⟨typeId, "", 0⟩, false⟩ : UA_ReferenceNode) ∈
        n'.references := by
  by_cases hra : ra.2 = UA_STATUSCODE_GOOD
  · rw [if_pos hra]
    obtain ⟨n', hn', he⟩ := hedge hra
    cases cb with
    | none => exact ⟨n', hn', he⟩
    | some c => exact ⟨n', hn', he⟩
  · rw [if_neg hra] at h
    exact absurd h hra

/-- A successful instantiation of an Object leaves the forward
HasTypeDefinition edge to the type on the instance. -/
theorem instantiateNode_good_edge (vc : UA_ValueCheck) (fuel : Nat)
    (s : UA_Server) (nodeId typeId : UA_NodeId) (cb : Option Nat)
    (h : (instantiateNode vc fuel s nodeId .OBJECT typeId cb).2 =
      UA_STATUSCODE_GOOD) :
    ∃ n', UA_NodeStore_get
        (instantiateNode vc fuel s nodeId .OBJECT typeId cb).1.nodestore
        nodeId = some n' ∧
      (⟨hasTypeDefinitionId, ⟨typeId, "", 0⟩, false⟩ : UA_ReferenceNode) ∈
        n'.references := by
  cases fuel with
  | zero =>
    simp [instantiateNode, UA_STATUSCODE_BADOUTOFMEMORY,
      UA_STATUSCODE_GOOD] at h
  | succ fuel =>
    cases hty : UA_NodeStore_get s.nodestore typeId with
    | none =>
      simp only [instantiateNode, hty] at h
      simp [UA_STATUSCODE_BADTYPEDEFINITIONINVALID, UA_STATUSCODE_GOOD] at h
    | some typenode =>
      simp only [instantiateNode, hty] at h ⊢
      rw [if_neg (show ¬(UA_NodeClass.OBJECT ≠ UA_NodeClass.VARIABLE ∧
          UA_NodeClass.OBJECT ≠ UA_NodeClass.OBJECT) by decide)] at h ⊢
      rw [if_neg (show ¬(UA_NodeClass.OBJECT = UA_NodeClass.VARIABLE ∧
          (typenode.nodeClass ≠ UA_NodeClass.VARIABLETYPE ∨
            typenode.isAbstract = true))
        from fun hc => absurd hc.1 (by decide))] at h ⊢
      by_cases habs : typenode.nodeClass ≠ UA_NodeClass.OBJECTTYPE ∨
          typenode.isAbstract = true
      · rw [if_pos (show True ∧ (typenode.nodeClass ≠ UA_NodeClass.OBJECTTYPE ∨
            typenode.isAbstract = true) from ⟨trivial, habs⟩)] at h
        simp [UA_STATUSCODE_BADTYPEDEFINITIONINVALID,
          UA_STATUSCODE_GOOD] at h
      · rw [if_neg (show ¬(True ∧
            (typenode.nodeClass ≠ UA_NodeClass.OBJECTTYPE ∨
              typenode.isAbstract = true))
          from fun hc => habs hc.2)] at h ⊢
        by_cases hrc : (copyChildNodesHierarchy vc fuel s
            (getTypeHierarchy s.nodestore typeId) nodeId cb
            UA_STATUSCODE_GOOD).2 ≠ UA_STATUSCODE_GOOD
        · rw [if_pos hrc] at h
          exact absurd h hrc
        · rw [if_neg hrc] at h ⊢
          exact instantiate_tail _ nodeId typeId cb
            (fun hg => ARS_success_edge _ _ rfl hg) h

/-- Claim C8: `UA_Server_addNode_finish` on an Object whose parent id and
reference type id are both null skips the parent-reference check entirely
and proceeds straight to instantiation against the defaulted type (no
parent reference is attached); a null type definition defaults to
BaseDataVariableType for Variables and to BaseObjectType for Objects; and
when the orphan add succeeds the object is in the store and carries a
forward HasTypeDefinition edge to BaseObjectType. -/
theorem addNode_finish_orphanObject (vc : UA_ValueCheck) (fuel : Nat)
    (s : UA_Server) (nodeId : UA_NodeId) (cb : Option Nat) (p r : UA_NodeId) :
    (UA_Server_addNode_finish vc (fuel+1) s nodeId .OBJECT nullNodeId
        nullNodeId nullNodeId cb =
      if (instantiateNode vc fuel s nodeId .OBJECT baseObjectTypeId cb).2 ≠
          UA_STATUSCODE_GOOD then
        ((Service_DeleteNodes_single
            (instantiateNode vc fuel s nodeId .OBJECT baseObjectTypeId cb).1
            nodeId true).1,
         (instantiateNode vc fuel s nodeId .OBJECT baseObjectTypeId cb).2)
      else ((instantiateNode vc fuel s nodeId .OBJECT baseObjectTypeId cb).1,
            UA_STATUSCODE_GOOD)) ∧
    (UA_Server_addNode_finish vc (fuel+1) s nodeId .VARIABLE p r nullNodeId cb =
      UA_Server_addNode_finish vc (fuel+1) s nodeId .VARIABLE p r
        baseDataVariableTypeId cb) ∧
    (UA_Server_addNode_finish vc (fuel+1) s nodeId .OBJECT p r nullNodeId cb =
      UA_Server_addNode_finish vc (fuel+1) s nodeId .OBJECT p r
        baseObjectTypeId cb) ∧
    ((UA_Server_addNode_finish vc (fuel+1) s nodeId .OBJECT nullNodeId
        nullNodeId nullNodeId cb).2 = UA_STATUSCODE_GOOD →
      ∃ n', UA_NodeStore_get
          (UA_Server_addNode_finish vc (fuel+1) s nodeId .OBJECT nullNodeId
            nullNodeId nullNodeId cb).1.nodestore nodeId = some n' ∧
        (⟨hasTypeDefinitionId, ⟨baseObjectTypeId, "", 0⟩, false⟩ :
          UA_ReferenceNode) ∈ n'.references) := by
  have h1 : UA_Server_addNode_finish vc (fuel+1) s nodeId .OBJECT nullNodeId
      nullNodeId nullNodeId cb =
      if (instantiateNode vc fuel s nodeId .OBJECT baseObjectTypeId cb).2 ≠
          UA_STATUSCODE_GOOD then
        ((Service_DeleteNodes_single
            (instantiateNode vc fuel s nodeId .OBJECT baseObjectTypeId cb).1
            nodeId true).1,
         (instantiateNode vc fuel s nodeId .OBJECT baseObjectTypeId cb).2)
      else ((instantiateNode vc fuel s nodeId .OBJECT baseObjectTypeId cb).1,
            UA_STATUSCODE_GOOD) := by
    simp [UA_Server_addNode_finish, typeCheckNode, UA_NodeId_isNull,
      nullNodeId, baseObjectTypeId]
  refine ⟨h1, ?_, ?_, ?_⟩
  · simp [UA_Server_addNode_finish, UA_NodeId_isNull, nullNodeId,
      baseDataVariableTypeId]
  · simp [UA_Server_addNode_finish, UA_NodeId_isNull, nullNodeId,
      baseObjectTypeId]
  · intro hg
    rw [h1] at hg ⊢
    by_cases hri : (instantiateNode vc fuel s nodeId .OBJECT
        baseObjectTypeId cb).2 ≠ UA_STATUSCODE_GOOD
    · rw [if_pos hri] at hg
      exact absurd hg hri
    · rw [if_neg hri] at hg ⊢
      exact instantiateNode_good_edge vc fuel s nodeId baseObjectTypeId cb
        (not_not.mp hri)

/-- Witness for claim C8: finishing a concrete orphan Object (null parent,
reference type and type definition) succeeds and the stored node carries
the forward HasTypeDefinition edge to BaseObjectType. -/
theorem addNode_finish_orphanObject_witness :
    ∃ n', UA_NodeStore_get
        (UA_Server_addNode_finish trivialValueCheck 8 w8server
          ⟨0, .numeric 800⟩ .OBJECT nullNodeId nullNodeId nullNodeId
          none).1.nodestore ⟨0, .numeric 800⟩ = some n' ∧
      (⟨hasTypeDefinitionId, ⟨baseObjectTypeId, "", 0⟩, false⟩ :
        UA_ReferenceNode) ∈ n'.references :=
  (addNode_finish_orphanObject trivialValueCheck 7 w8server ⟨0, .numeric 800⟩
      none nullNodeId nullNodeId).2.2.2 (by decide)

/-- Counterexample to claim C9: a successful `UA_Server_addMethodNode` call
with empty argument arrays returns GOOD yet synthesizes neither an
InputArguments nor an OutputArguments child — the children only exist when
the corresponding argument array is non-empty. -/
theorem UA_Server_addMethodNode_no_arguments_counterexample :
    (UA_Server_addMethodNode trivialValueCheck 6 w9server ⟨0, .numeric 5⟩
        ⟨0, .numeric 1⟩ ⟨0, .numeric 47⟩ ⟨0, "M"⟩ w9attr none 0 0 0).2.1 =
      UA_STATUSCODE_GOOD ∧
    ((UA_Server_addMethodNode trivialValueCheck 6 w9server ⟨0, .numeric 5⟩
        ⟨0, .numeric 1⟩ ⟨0, .numeric 47⟩ ⟨0, "M"⟩ w9attr none 0 0
        0).1.nodestore.all
      (fun n => decide (n.browseName.name ≠ "InputArguments") &&
        decide (n.browseName.name ≠ "OutputArguments"))) = true := by
  decide

/-- Amended claim C9: `UA_Server_addMethodNode` first adds the Method node
under the given parent; a failing method add is surfaced unchanged with no
children synthesized.  On success the InputArguments child is synthesized
only when `inputArgumentsSize > 0` and the OutputArguments child only when
`outputArgumentsSize > 0`, each via a full `UA_Server_addNode` of a Variable
of type PropertyType connected to the method by HasProperty, whose statuses
are discarded (the overall status is the method add's GOOD).  The
synthesized children carry browse name InputArguments / OutputArguments in
namespace 0, valueRank 1, dataType BaseDataType, and a
minimumSamplingInterval of 10000 ms on InputArguments and 0 on
OutputArguments. -/
theorem UA_Server_addMethodNode_spec (vc : UA_ValueCheck) (fuel : Nat)
    (s : UA_Server) (reqId parentId refTypeId : UA_NodeId)
    (bn : UA_QualifiedName) (attr : UA_MethodAttributes)
    (method : UA_MethodCallback) (handle : Nat) (inS outS : Nat)
    (m : UA_NodeId) (k : Nat) :
    ((methodNodeAdd vc fuel s reqId parentId refTypeId bn attr method
        handle).2.1 ≠ UA_STATUSCODE_GOOD →
      UA_Server_addMethodNode vc fuel s reqId parentId refTypeId bn attr
          method handle inS outS =
        ((methodNodeAdd vc fuel s reqId parentId refTypeId bn attr method
            handle).1,
         (methodNodeAdd vc fuel s reqId parentId refTypeId bn attr method
            handle).2.1, nullNodeId)) ∧
    ((methodNodeAdd vc fuel s reqId parentId refTypeId bn attr method
        handle).2.1 = UA_STATUSCODE_GOOD →
      UA_Server_addMethodNode vc fuel s reqId parentId refTypeId bn attr
          method handle 0 0 =
        ((methodNodeAdd vc fuel s reqId parentId refTypeId bn attr method
            handle).1, UA_STATUSCODE_GOOD,
         (methodNodeAdd vc fuel s reqId parentId refTypeId bn attr method
            handle).2.2)) ∧
    ((methodNodeAdd vc fuel s reqId parentId refTypeId bn attr method
        handle).2.1 = UA_STATUSCODE_GOOD → inS > 0 → outS > 0 →
      UA_Server_addMethodNode vc fuel s reqId parentId refTypeId bn attr
          method handle inS outS =
        ((argumentsNodeAdd vc fuel
            (argumentsNodeAdd vc fuel
              (methodNodeAdd vc fuel s reqId parentId refTypeId bn attr
                method handle).1
              (methodNodeAdd vc fuel s reqId parentId refTypeId bn attr
                method handle).2.2 "InputArguments" inS true).1
            (methodNodeAdd vc fuel s reqId parentId refTypeId bn attr
              method handle).2.2 "OutputArguments" outS false).1,
         UA_STATUSCODE_GOOD,
         (methodNodeAdd vc fuel s reqId parentId refTypeId bn attr method
            handle).2.2)) ∧
    (mkArgumentsVariableNode m "InputArguments" k true).browseName =
      ⟨0, "InputArguments"⟩ ∧
    (mkArgumentsVariableNode m "InputArguments" k true).valueRank = 1 ∧
    (mkArgumentsVariableNode m "InputArguments" k true).dataType =
      baseDataTypeId ∧
    (mkArgumentsVariableNode m "InputArguments" k
      true).minimumSamplingInterval = 10000 ∧
    (mkArgumentsVariableNode m "InputArguments" k true).nodeClass =
      .VARIABLE ∧
    (mkArgumentsVariableNode m "OutputArguments" k false).browseName =
      ⟨0, "OutputArguments"⟩ ∧
    (mkArgumentsVariableNode m "OutputArguments" k
      false).minimumSamplingInterval = 0 := by
  refine ⟨?_, ?_, ?_, rfl, rfl, rfl, rfl, rfl, rfl, rfl⟩
  · intro h
    simp only [methodNodeAdd] at h
    simp only [UA_Server_addMethodNode, methodNodeAdd]
    rw [if_pos h]
  · intro h
    simp only [methodNodeAdd] at h
    simp only [UA_Server_addMethodNode, methodNodeAdd]
    rw [if_neg (fun hc => hc h),
      if_neg (show ¬((0:Nat) > 0) by decide),
      if_neg (show ¬((0:Nat) > 0) by decide), h]
  · intro h hin hout
    simp only [methodNodeAdd] at h
    simp only [UA_Server_addMethodNode, methodNodeAdd, argumentsNodeAdd]
    rw [if_neg (fun hc => hc h), if_pos hin, if_pos hout, h]

/-- Witness for the amended claim C9: a concrete successful method add with
empty argument arrays returns the method add's result unchanged. -/
theorem UA_Server_addMethodNode_spec_witness :
    UA_Server_addMethodNode trivialValueCheck 6 w9server ⟨0, .numeric 5⟩
        ⟨0, .numeric 1⟩ ⟨0, .numeric 47⟩ ⟨0, "M"⟩ w9attr none 0 0 0 =
      ((methodNodeAdd trivialValueCheck 6 w9server ⟨0, .numeric 5⟩
          ⟨0, .numeric 1⟩ ⟨0, .numeric 47⟩ ⟨0, "M"⟩ w9attr none 0).1,
       UA_STATUSCODE_GOOD,
       (methodNodeAdd trivialValueCheck 6 w9server ⟨0, .numeric 5⟩
          ⟨0, .numeric 1⟩ ⟨0, .numeric 47⟩ ⟨0, "M"⟩ w9attr none 0).2.2) :=
  (UA_Server_addMethodNode_spec trivialValueCheck 6 w9server ⟨0, .numeric 5⟩
      ⟨0, .numeric 1⟩ ⟨0, .numeric 47⟩ ⟨0, "M"⟩ w9attr none 0 0 0
      nullNodeId 0).2.1 (by decide)

end NodeMgmt
